import Mathlib

/-!
# Ask AYO backend: request handlers over an explicit store

Shallow embedding of the route handlers of `src/routes/feedback.js`,
`src/routes/ai.js` and `src/ask_ayo_backend_CORS_FIX/routes/analytics.js`.

* A request body field is a `JSVal` (an absent key is `undefined`).
* The database is a `Store`: one `Table` per model of `src/models/index.js`,
  each a list of rows in insertion order plus the next auto-increment id.
  ORM calls are the pure functions `find?` / append / `map`. In the two
  writing routes of `src/routes/feedback.js` a statement that the database
  refuses throws, and the `catch` of the handler answers 500.
* A handler is a function from the store, the request and the clock reading
  of the request to the new store and the response.
-/

namespace AskAyo

/-! ## Request values -/

/-- JSON scalar held by a field of `req.body`; `undefined` is a key that is absent and a
number is an integer. -/
inductive JSVal where
  | undefined
  | null
  | bool (b : Bool)
  | num (n : Int)
  | str (s : String)
  deriving DecidableEq, Repr

namespace JSVal

/-- JavaScript truthiness, the test behind `!x`, `x || y` and `x ? a : b`. -/
def truthy : JSVal → Bool
  | undefined => false
  | null => false
  | bool b => b
  | num n => n != 0
  | str s => s != ""

/-- JavaScript `a || b`: the left operand when it is truthy, else the right one. -/
def or (a b : JSVal) : JSVal := if a.truthy then a else b

/-- JavaScript `x === false`. -/
def isFalse (x : JSVal) : Bool := x == bool false

end JSVal

/-! ## Data model (`src/models/index.js`) -/

/-- Row of `users`. -/
structure User where
  id : Nat
  client_id : JSVal
  first_seen_at : Nat
  last_seen_at : Nat
  total_lookups : Int
  deriving DecidableEq, Repr

/-- Row of `term_lookups`. -/
structure TermLookup where
  id : Nat
  client_id : JSVal
  term_key : JSVal
  term_display : JSVal
  complexity_level : JSVal
  page_url : JSVal
  page_context : JSVal
  found : Bool
  lookup_timestamp : Nat
  deriving DecidableEq, Repr

/-- Row of `feedback`. -/
structure Feedback where
  id : Nat
  client_id : JSVal
  term_key : JSVal
  feedback_type : JSVal
  complexity_level : JSVal
  comment : JSVal
  deriving DecidableEq, Repr

/-- Row of `missing_terms`. -/
structure MissingTerm where
  id : Nat
  client_id : JSVal
  missing_text : JSVal
  page_url : JSVal
  page_context : JSVal
  lookup_count : Int
  first_seen_at : Nat
  last_seen_at : Nat
  deriving DecidableEq, Repr

/-- Table with an auto-increment primary key: rows in insertion order and the next id. -/
structure Table (α : Type) where
  rows : List α
  nextId : Nat
  deriving Repr

/-- `Model.create`: append the row built from the fresh id and advance the sequence. -/
def Table.create {α : Type} (t : Table α) (mk : Nat → α) : Table α :=
  { rows := t.rows ++ [mk t.nextId], nextId := t.nextId + 1 }

/-- Tables written by the feedback routes. -/
structure Store where
  users : Table User
  termLookups : Table TermLookup
  feedback : Table Feedback
  missingTerms : Table MissingTerm
  deriving Repr

/-- Database right after the schema is created. -/
def Store.empty : Store :=
  { users := ⟨[], 1⟩, termLookups := ⟨[], 1⟩, feedback := ⟨[], 1⟩, missingTerms := ⟨[], 1⟩ }

/-! ## Responses -/

/-- The `data` / `error` part of the JSON envelope. -/
inductive Payload where
  | error (message : String)
  | lookup (lookup_id : Nat) (total_lookups : Int)
  | feedback (feedback_id : Nat)
  | stats (total_lookups : Int) (unique_terms : Nat) (days_active : Int)
      (first_seen last_seen : Option Nat)
  deriving DecidableEq, Repr

/-- HTTP status and JSON envelope; `res.json` without `res.status` answers 200. -/
structure Response where
  status : Nat
  success : Bool
  payload : Payload
  deriving DecidableEq, Repr

/-! ## What the database accepts

The handlers reach Postgres through the ORM, and a statement that the database refuses
makes the `await` throw: the `catch` of the handler then answers 500, and what earlier
statements of the request wrote stays written. Three refusals are modelled:

* a `where` on a `STRING` column with a value that is not a string: a number or boolean
  is written unquoted and the comparison `varchar = integer` is refused;
* an INSERT into a `STRING(n)` column of a text longer than `n` characters;
* a text that holds the NUL character.

A refused statement leaves its table as it was (a sequence value that a refused INSERT may
consume is not modelled). `INTEGER` columns are not bounded: ids and counters are taken to
stay below 2^31. -/

/-- Text that an INSERT binds for a value; `none` is SQL `NULL`. -/
def JSVal.bindText : JSVal → Option String
  | .undefined => none
  | .null => none
  | .bool b => some (if b then "true" else "false")
  | .num n => some (toString n)
  | .str s => some s

/-- A text that Postgres can hold: it has no NUL character. -/
def okText (s : String) : Bool := s.toList.all (fun c => c != Char.ofNat 0)

/-- A `STRING(n)` column accepts the value. -/
def fitsString (n : Nat) (v : JSVal) : Bool :=
  match v.bindText with
  | none => true
  | some s => okText s && s.length ≤ n

/-- A `TEXT` column accepts the value. -/
def fitsText (v : JSVal) : Bool :=
  match v.bindText with
  | none => true
  | some s => okText s

/-- What a text column holds once the value is inserted. -/
def JSVal.stored (v : JSVal) : JSVal :=
  match v.bindText with
  | none => .null
  | some s => .str s

/-- The comparison `column = value` of a `where` on a `STRING` column is accepted. -/
def whereOk : JSVal → Bool
  | .str s => okText s
  | _ => false

/-- A non-empty string of at most `n` characters, none of them NUL. -/
def JSVal.keyString (n : Nat) : JSVal → Bool
  | .str s => s != "" && okText s && s.length ≤ n
  | _ => false

/-! ## `POST /api/feedback/lookup` -/

/-- Destructured `req.body` of the lookup route. -/
structure LookupBody where
  client_id : JSVal
  term_key : JSVal
  term_display : JSVal
  complexity_level : JSVal
  page_url : JSVal
  page_context : JSVal
  found : JSVal
  deriving DecidableEq, Repr

/-- What `User.findOrCreate` by `client_id`, followed by `user.update` when the row
existed, writes when no statement is refused; with the in-memory `user` instance. -/
def upsertUserRows (t : Table User) (client_id : JSVal) (now : Nat) : Table User × User :=
  match t.rows.find? (fun u => u.client_id = client_id) with
  | none =>
    let user : User :=
      { id := t.nextId, client_id := client_id, first_seen_at := now, last_seen_at := now,
        total_lookups := 1 }
    (t.create (fun _ => user), user)
  | some user =>
    let upd : User → User := fun r =>
      { r with last_seen_at := now, total_lookups := user.total_lookups + 1 }
    ({ t with rows := t.rows.map (fun r => if r.id = user.id then upd r else r) }, upd user)

/-- `User.findOrCreate` by `client_id` followed by `user.update` when the row existed;
`none` when it throws: the SELECT is refused for a `client_id` that is not a string, the
INSERT of a new row for one that does not fit `STRING(255)`. -/
def upsertUser (t : Table User) (client_id : JSVal) (now : Nat) :
    Option (Table User × User) :=
  if !whereOk client_id then none
  else if (t.rows.find? (fun u => u.client_id = client_id)).isNone &&
      !fitsString 255 client_id then none
  else some (upsertUserRows t client_id now)

/-- What `MissingTerm.findOrCreate` by `missing_text`, followed by `missingTerm.update`
when the row existed, writes when no statement is refused. -/
def upsertMissingTermRows (t : Table MissingTerm) (b : LookupBody) (now : Nat) :
    Table MissingTerm :=
  match t.rows.find? (fun m => m.missing_text = b.term_key) with
  | none =>
    t.create (fun id =>
      { id := id, client_id := b.client_id.stored, missing_text := b.term_key.stored,
        page_url := b.page_url.stored, page_context := b.page_context.stored,
        lookup_count := 1, first_seen_at := now, last_seen_at := now })
  | some missingTerm =>
    { t with rows := t.rows.map (fun r =>
        if r.id = missingTerm.id then
          { r with lookup_count := missingTerm.lookup_count + 1, last_seen_at := now }
        else r) }

/-- `MissingTerm.findOrCreate` by `missing_text` followed by `missingTerm.update` when the
row existed; `none` when it throws: the SELECT is refused for a `term_key` that is not a
string, the INSERT of a new row for values that do not fit their columns. -/
def upsertMissingTerm (t : Table MissingTerm) (b : LookupBody) (now : Nat) :
    Option (Table MissingTerm) :=
  if !whereOk b.term_key then none
  else if (t.rows.find? (fun m => m.missing_text = b.term_key)).isNone &&
      !(fitsString 255 b.client_id && fitsString 255 b.term_key && fitsText b.page_url &&
        fitsText b.page_context) then none
  else some (upsertMissingTermRows t b now)

/-- The row that `TermLookup.create` inserts. -/
def lookupRow (id : Nat) (b : LookupBody) (now : Nat) : TermLookup :=
  { id := id
    client_id := b.client_id.stored
    term_key := b.term_key.stored
    term_display := (b.term_display.or b.term_key).stored
    complexity_level := (b.complexity_level.or (.str "simple")).stored
    page_url := b.page_url.stored
    page_context := b.page_context.stored
    found := !b.found.isFalse
    lookup_timestamp := now }

/-- The INSERT of `TermLookup.create` is accepted. -/
def lookupRowFits (b : LookupBody) : Bool :=
  fitsString 255 b.client_id && fitsString 255 b.term_key &&
    fitsString 255 (b.term_display.or b.term_key) &&
    fitsString 50 (b.complexity_level.or (.str "simple")) &&
    fitsText b.page_url && fitsText b.page_context

/-- The answer of the `catch` of the lookup route. -/
def lookupFailed : Response := ⟨500, false, .error "Failed to track lookup"⟩

/-- The handler of `router.post('/lookup')`. -/
def record_lookup (s : Store) (b : LookupBody) (now : Nat) : Store × Response :=
  if !b.client_id.truthy || !b.term_key.truthy then
    (s, ⟨400, false, .error "client_id and term_key are required"⟩)
  else
    match upsertUser s.users b.client_id now with
    | none => (s, lookupFailed)
    | some (users, user) =>
      if !lookupRowFits b then ({ s with users := users }, lookupFailed)
      else
        let lookup := lookupRow s.termLookups.nextId b now
        let termLookups := s.termLookups.create (fun _ => lookup)
        if b.found.isFalse then
          match upsertMissingTerm s.missingTerms b now with
          | none => ({ s with users := users, termLookups := termLookups }, lookupFailed)
          | some missingTerms =>
            ({ s with users := users, termLookups := termLookups,
                      missingTerms := missingTerms },
              ⟨200, true, .lookup lookup.id user.total_lookups⟩)
        else
          ({ s with users := users, termLookups := termLookups },
            ⟨200, true, .lookup lookup.id user.total_lookups⟩)

/-- Requests of the lookup route handled one after another, none interleaved. -/
def runLookups (s : Store) : List (LookupBody × Nat) → Store
  | [] => s
  | (b, now) :: rest => runLookups (record_lookup s b now).1 rest

/-- The fields of a lookup body are in range: `client_id` and `term_key` are non-empty
strings of at most 255 characters, and the other fields fit their columns. -/
def LookupBody.inRange (b : LookupBody) : Prop :=
  b.client_id.keyString 255 = true ∧ b.term_key.keyString 255 = true ∧
    fitsString 255 (b.term_display.or b.term_key) = true ∧
    fitsString 50 (b.complexity_level.or (.str "simple")) = true ∧
    fitsText b.page_url = true ∧ fitsText b.page_context = true

instance (b : LookupBody) : Decidable b.inRange := by
  unfold LookupBody.inRange; infer_instance

/-! ## `POST /api/feedback/submit` -/

/-- Destructured `req.body` of the submit route. -/
structure SubmitBody where
  client_id : JSVal
  term_key : JSVal
  feedback_type : JSVal
  complexity_level : JSVal
  comment : JSVal
  deriving DecidableEq, Repr

/-- The array `validTypes` of the submit route. -/
def validTypes : List String := ["thumbs_up", "thumbs_down", "confused"]

/-- `validTypes.includes(x)`: `x` is strictly equal to one of the strings. -/
def validTypesIncludes (x : JSVal) : Bool := validTypes.any (fun t => JSVal.str t == x)

/-- The INSERT of `Feedback.create` is accepted. -/
def feedbackRowFits (b : SubmitBody) : Bool :=
  fitsString 255 b.client_id && fitsString 255 b.term_key &&
    fitsString 50 b.feedback_type && fitsString 50 b.complexity_level && fitsText b.comment

/-- The handler of `router.post('/submit')`. -/
def submit_feedback (s : Store) (b : SubmitBody) : Store × Response :=
  if !b.client_id.truthy || !b.term_key.truthy || !b.feedback_type.truthy then
    (s, ⟨400, false, .error "client_id, term_key, and feedback_type are required"⟩)
  else if !validTypesIncludes b.feedback_type then
    (s, ⟨400, false, .error ("feedback_type must be one of: " ++ ", ".intercalate validTypes)⟩)
  else if !feedbackRowFits b then
    (s, ⟨500, false, .error "Failed to submit feedback"⟩)
  else
    let feedback := s.feedback.create (fun id =>
      { id := id, client_id := b.client_id.stored, term_key := b.term_key.stored,
        feedback_type := b.feedback_type.stored,
        complexity_level := b.complexity_level.stored, comment := b.comment.stored })
    ({ s with feedback := feedback }, ⟨200, true, .feedback s.feedback.nextId⟩)

/-! ## `GET /api/feedback/stats/:client_id` -/

/-- `findOne` with `order: [['lookup_timestamp', 'ASC']]`: a row of least timestamp. -/
def earliestLookup : List TermLookup → Option TermLookup
  | [] => none
  | l :: rest =>
    match earliestLookup rest with
    | none => some l
    | some m => if l.lookup_timestamp ≤ m.lookup_timestamp then some l else some m

/-- Milliseconds in a day, `1000 * 60 * 60 * 24`. -/
def msPerDay : Int := 1000 * 60 * 60 * 24

/-- `Math.ceil(ms / msPerDay)` on an integer number of milliseconds. -/
def ceilDays (ms : Int) : Int := -((-ms) / msPerDay)

/-- The handler of `router.get('/stats/:client_id')`; the route parameter is a string
and the handler only reads the store. -/
def get_user_stats (s : Store) (client_id : String) (now : Nat) : Response :=
  match s.users.rows.find? (fun u => u.client_id = JSVal.str client_id) with
  | none => ⟨200, true, .stats 0 0 0 none none⟩
  | some user =>
    let mine := s.termLookups.rows.filter (fun l => l.client_id = JSVal.str client_id)
    let uniqueTerms := (mine.map (fun l => l.term_key)).dedup.length
    let daysActive : Int :=
      match earliestLookup mine with
      | some firstLookup => ceilDays ((now : Int) - (firstLookup.lookup_timestamp : Int))
      | none => 0
    ⟨200, true,
      .stats user.total_lookups uniqueTerms daysActive (some user.first_seen_at)
        (some user.last_seen_at)⟩

/-! ## `GET /api/analytics/user-engagement`: user distribution -/

/-- The SQL `CASE` expression that labels a user by `total_lookups`. -/
def bucket (total_lookups : Int) : String :=
  if total_lookups ≤ 5 then "1-5"
  else if total_lookups ≤ 10 then "6-10"
  else if total_lookups ≤ 20 then "11-20"
  else if total_lookups ≤ 50 then "21-50"
  else "50+"

/-- Row of `user_distribution`. -/
structure BucketRow where
  bucket : String
  user_count : Nat
  deriving DecidableEq, Repr

/-- The grouped query `userDistribution`: one row per label that occurs, with `COUNT(id)`. -/
def userDistribution (users : List User) : List BucketRow :=
  ((users.map (fun u => bucket u.total_lookups)).dedup).map (fun k =>
    { bucket := k, user_count := users.countP (fun u => bucket u.total_lookups = k) })

/-! ## `GET /api/analytics/overview`: popular terms -/

/-- Row of `popular_terms`. -/
structure PopularTerm where
  term_key : JSVal
  term_display : JSVal
  lookup_count : Nat
  unique_users : Nat
  deriving DecidableEq, Repr

/-- The `group` key of the popular-terms query. -/
def termGroup (l : TermLookup) : JSVal × JSVal := (l.term_key, l.term_display)

/-- The grouped query `popularTerms`: rows with `found = true`, grouped by
`(term_key, term_display)`, with `COUNT(id)` and `COUNT(DISTINCT client_id)`, ordered by
the count descending, first ten. -/
def popularTerms (rows : List TermLookup) : List PopularTerm :=
  let found := rows.filter (fun l => l.found)
  let groups := ((found.map termGroup).dedup).map (fun k =>
    let members := found.filter (fun l => termGroup l = k)
    ({ term_key := k.1, term_display := k.2, lookup_count := members.length,
       unique_users := ((members.map (fun l => l.client_id)).dedup).length } : PopularTerm))
  (groups.insertionSort (fun a b => a.lookup_count ≥ b.lookup_count)).take 10

/-- A request field that is missing: `undefined`, `null` or the empty string. -/
def JSVal.missing (x : JSVal) : Prop := x = .undefined ∨ x = .null ∨ x = .str ""

instance (x : JSVal) : Decidable x.missing := by
  unfold JSVal.missing; infer_instance

/-- A body passes the required-field check of the lookup route. -/
def LookupBody.valid (b : LookupBody) : Prop :=
  b.client_id.truthy = true ∧ b.term_key.truthy = true

instance (b : LookupBody) : Decidable b.valid := by
  unfold LookupBody.valid; infer_instance

/-! ## Request sequences -/

/-- A request to one of the two writing routes of `src/routes/feedback.js`. -/
inductive Request where
  | lookup (b : LookupBody) (now : Nat)
  | submit (b : SubmitBody)
  deriving DecidableEq, Repr

/-- The store after one request is handled. -/
def step (s : Store) : Request → Store
  | .lookup b now => (record_lookup s b now).1
  | .submit b => (submit_feedback s b).1

/-- The store after the requests are handled one after another, none interleaved. -/
def run (s : Store) (reqs : List Request) : Store := reqs.foldl step s

/-- No two User rows share a `client_id` and no two MissingTerm rows share a
`missing_text`. -/
def Store.uniqueKeys (s : Store) : Prop :=
  s.users.rows.Pairwise (fun a b => a.client_id ≠ b.client_id) ∧
    s.missingTerms.rows.Pairwise (fun a b => a.missing_text ≠ b.missing_text)

/-- Every TermLookup row belongs to a client that has a User row. -/
def Store.lookupsHaveUser (s : Store) : Prop :=
  ∀ l ∈ s.termLookups.rows, ∃ u ∈ s.users.rows, u.client_id = l.client_id

/-! ## `GET /api/analytics/daily` -/

/-- `StrWhiteSpaceChar`: the white space and line terminators that `parseInt` skips. -/
def isStrWhiteSpace (c : Char) : Bool :=
  let n := c.toNat
  (0x09 ≤ n && n ≤ 0x0D) || n == 0x20 || n == 0xA0 || n == 0x1680 ||
    (0x2000 ≤ n && n ≤ 0x200A) || n == 0x2028 || n == 0x2029 || n == 0x202F ||
    n == 0x205F || n == 0x3000 || n == 0xFEFF

/-- Value of a character as a digit, letters standing for 10 to 35. -/
def digitValue (c : Char) : Option Nat :=
  let n := c.toNat
  if 48 ≤ n ∧ n ≤ 57 then some (n - 48)
  else if 97 ≤ n ∧ n ≤ 122 then some (n - 87)
  else if 65 ≤ n ∧ n ≤ 90 then some (n - 55)
  else none

/-- The longest prefix of digits of the radix, as digit values. -/
def takeDigits (radix : Nat) : List Char → List Nat
  | [] => []
  | c :: cs =>
    match digitValue c with
    | some d => if d < radix then d :: takeDigits radix cs else []
    | none => []

/-- JavaScript `parseInt(string)` with no radix argument; `none` is `NaN`. The result is
the exact integer (the rounding of integers beyond 2^53 to a double is not modelled). -/
def parseInt (s : String) : Option Int :=
  let cs := s.toList.dropWhile isStrWhiteSpace
  let signed : Int × List Char :=
    match cs with
    | '-' :: r => (-1, r)
    | '+' :: r => (1, r)
    | _ => (1, cs)
  let prefixed : Nat × List Char :=
    match signed.2 with
    | '0' :: 'x' :: r => (16, r)
    | '0' :: 'X' :: r => (16, r)
    | _ => (10, signed.2)
  let ds := takeDigits prefixed.1 prefixed.2
  if ds.isEmpty then none
  else some (signed.1 * (ds.foldl (fun acc d => acc * prefixed.1 + d) 0 : Nat))

/-- Largest time value of a `Date`, 8.64e15 ms. -/
def maxTime : Int := 8640000000000000

/-- `TimeClip`: a time value outside the range makes an Invalid Date (`none`). -/
def timeClip (t : Int) : Option Int := if t.natAbs ≤ maxTime.natAbs then some t else none

/-- The `startDate` of the daily route, as milliseconds since the epoch in a time zone
without clock changes: `const { days = 30 } = req.query` then
`startDate.setDate(startDate.getDate() - parseInt(days))`. The default applies only to
an absent parameter; `none` is an Invalid Date. -/
def dailyStartDate (days : Option String) (now : Int) : Option Int :=
  let parsed :=
    match days with
    | none => parseInt (toString (30 : Nat))
    | some v => parseInt v
  match parsed with
  | none => none
  | some n => timeClip (now - n * msPerDay)

/-- Row of `analytics_daily`; `date` is a day, held as its time value. -/
structure AnalyticsDaily where
  id : Nat
  date : Int
  total_lookups : Int
  unique_users : Int
  total_feedback : Int
  thumbs_up : Int
  thumbs_down : Int
  confused_clicks : Int
  ai_rewrites : Int
  top_terms : String
  deriving DecidableEq, Repr

/-- Response of the daily route. -/
structure DailyResponse where
  status : Nat
  success : Bool
  data : Except String (List AnalyticsDaily)

/-- The handler of `router.get('/daily')`. The query
`AnalyticsDaily.findAll` (rows with `date >= startDate`, newest first) is a parameter:
it receives the start date, possibly Invalid, and either returns rows or throws. -/
def daily (findAll : Option Int → Option (List AnalyticsDaily)) (days : Option String)
    (now : Int) : DailyResponse :=
  match findAll (dailyStartDate days now) with
  | some dailyStats => ⟨200, true, .ok dailyStats⟩
  | none => ⟨500, false, .error "Failed to get daily analytics"⟩

/-! ## JavaScript numbers

A finite Number is held as the rational it denotes. Every arithmetic operation rounds the
exact result to the nearest binary64 value, ties to even. Numbers of magnitude 2^1024
and more (overflow to `Infinity`) are outside the model. -/

namespace F64

/-- Floor of the binary logarithm by repeated halving, `0` at `0`; the fuel bounds the
number of halvings. -/
def log2Fuel : Nat → Nat → Nat
  | 0, _ => 0
  | fuel + 1, n => if n < 2 then 0 else log2Fuel fuel (n / 2) + 1

/-- Floor of the binary logarithm of a positive natural number. -/
def ilog2 (n : Nat) : Nat := log2Fuel n n

/-- The exponent `e` of the binade of a non-zero rational: `2^e ≤ |q| < 2^(e+1)`. -/
def expo (q : ℚ) : ℤ :=
  let e0 : ℤ := (ilog2 q.num.natAbs : ℤ) - (ilog2 q.den : ℤ)
  if (2 : ℚ) ^ e0 ≤ |q| then e0 else e0 - 1

/-- Nearest integer, a tie going to the even neighbour. -/
def roundHalfEven (m : ℚ) : ℤ :=
  let f := ⌊m⌋
  let r := m - f
  if r < 1 / 2 then f else if 1 / 2 < r then f + 1 else if f % 2 = 0 then f else f + 1

/-- Unit in the last place of the binade of `q`: 53 significant bits, the exponent not
below that of the least normal number. -/
def ulp (q : ℚ) : ℚ := (2 : ℚ) ^ (max (expo q) (-1022) - 52)

/-- Round to the nearest binary64 value, ties to even. -/
def rn (q : ℚ) : ℚ := roundHalfEven (q / ulp q) * ulp q

/-- An integer as a Number. -/
def ofNat (n : Nat) : ℚ := rn n

/-- JavaScript `a * b`. -/
def mul (a b : ℚ) : ℚ := rn (a * b)

/-- JavaScript `a / b` for `b ≠ 0`. -/
def div (a b : ℚ) : ℚ := rn (a / b)

/-- JavaScript `a + b`. -/
def add (a b : ℚ) : ℚ := rn (a + b)

/-- The integer `n` of `Number.prototype.toFixed(d)`: `n / 10^d - |x|` is as close to
zero as possible, the larger `n` when there are two. -/
def toFixedN (d : Nat) (x : ℚ) : Nat := ⌊|x| * 10 ^ d + 1 / 2⌋.toNat

/-- The digit string of `toFixed(d)` for the integer `n`: the decimal digits of `n`, padded
with zeros on the left to `d + 1` digits, a point before the last `d` digits. -/
def fixedDigits (d n : Nat) : List Char :=
  let m := (toString n).toList
  let m := if m.length ≤ d then List.replicate (d + 1 - m.length) '0' ++ m else m
  if d = 0 then m else m.take (m.length - d) ++ '.' :: m.drop (m.length - d)

/-- `x.toFixed(d)` for `|x| < 10^21`. -/
def toFixed (d : Nat) (x : ℚ) : String :=
  String.mk ((if x < 0 then ['-'] else []) ++ fixedDigits d (toFixedN d x))

/-- `parseFloat(x.toFixed(d))`: the Number nearest to the decimal that the string
denotes. -/
def parseFloatFixed (d : Nat) (x : ℚ) : ℚ :=
  rn ((if x < 0 then -1 else 1) * (toFixedN d x : ℚ) / 10 ^ d)

/-- Relative rounding error of one operation, `2^-53`. -/
def eps : ℚ := 1 / 2 ^ 53

/-- The value `x` is the exact value `E` up to `k` roundings. -/
def Within (k : Nat) (x E : ℚ) : Prop := E * (1 - eps) ^ k ≤ x ∧ x ≤ E * (1 + eps) ^ k

end F64

/-! ## `GET /api/analytics/user-engagement`: retention -/

/-- The expression `retention_rate` of the user-engagement route. -/
def retention_rate (activeLastWeek activeLastMonth : Nat) : String :=
  if activeLastMonth > 0 then
    F64.toFixed 2 (F64.mul (F64.div (F64.ofNat activeLastWeek) (F64.ofNat activeLastMonth))
      (F64.ofNat 100)) ++ "%"
  else "0%"

/-! ## `POST /api/ai/rewrite` -/

/-- Destructured `req.body` of the rewrite route. -/
structure RewriteBody where
  client_id : JSVal
  term_key : JSVal
  term_display : JSVal
  original_explanation : JSVal
  complexity_level : JSVal
  user_context : JSVal
  deriving DecidableEq, Repr

/-- The `usage` object of a completion. -/
structure Usage where
  prompt_tokens : Nat
  completion_tokens : Nat
  total_tokens : Nat
  deriving DecidableEq, Repr

/-- What the handler reads of a completion: `choices[0].message.content` and `usage`. -/
structure Completion where
  content : String
  usage : Usage
  deriving DecidableEq, Repr

/-- Outcome of `openai.chat.completions.create`: a completion, an error that carries
`error.response`, or any other error. -/
inductive UpstreamResult where
  | ok (completion : Completion)
  | apiError (status : Nat) (message : String)
  | failure
  deriving DecidableEq, Repr

/-- Row of `ai_rewrites`; `cost_usd` is the Number handed to `AIRewrite.create`. -/
structure AIRewrite where
  id : Nat
  client_id : JSVal
  term_key : JSVal
  original_explanation : JSVal
  rewritten_explanation : String
  model : String
  tokens_used : Nat
  cost_usd : ℚ
  deriving DecidableEq, Repr

/-- The `data` of a successful rewrite. -/
structure RewriteData where
  rewrite_id : Nat
  rewritten_explanation : String
  tokens_used : Nat
  cost_usd : ℚ
  deriving DecidableEq, Repr

/-- Response of the rewrite route: status, `success` and `data` or `error`. -/
structure RewriteResponse where
  status : Nat
  success : Bool
  data : Except String RewriteData

/-- Effects of one rewrite request: the table, the response and the prompts sent to the
language-model API. -/
structure RewriteOutcome where
  table : Table AIRewrite
  response : RewriteResponse
  calls : List String

/-- Conversion of a value inside a template literal. -/
def JSVal.toStr : JSVal → String
  | .undefined => "undefined"
  | .null => "null"
  | .bool b => if b then "true" else "false"
  | .num n => toString n
  | .str s => s

/-- The template literal `prompt`. -/
def rewritePrompt (b : RewriteBody) : String :=
  "You are Ask AYO, a financial jargon translator that helps people understand financial terms in plain English.\n\nA user is confused by this explanation of \"" ++
    (b.term_display.or b.term_key).toStr ++ "\":\n\n\"" ++ b.original_explanation.toStr ++
    "\"\n\nPlease rewrite this explanation to be:\n- Clearer and easier to understand\n- More conversational and engaging\n- Include a real-world example or analogy\n- Keep it concise (60-120 words)\n- Use the Ask AYO tone: confident, accessible, authentic, supportive\n\n" ++
    (if b.user_context.truthy then "Additional context: " ++ b.user_context.toStr else "") ++
    "\n\nRewrite the explanation now:"

/-- The expression `cost_usd`:
`(input_tokens * 0.0015 / 1000) + (output_tokens * 0.002 / 1000)`. -/
def cost_usd (input_tokens output_tokens : Nat) : ℚ :=
  F64.add
    (F64.div (F64.mul (F64.ofNat input_tokens) (F64.rn (15 / 10000))) (F64.ofNat 1000))
    (F64.div (F64.mul (F64.ofNat output_tokens) (F64.rn (2 / 1000))) (F64.ofNat 1000))

/-- The `cost_usd` of the response, `parseFloat(cost_usd.toFixed(6))`. -/
def returned_cost_usd (input_tokens output_tokens : Nat) : ℚ :=
  F64.parseFloatFixed 6 (cost_usd input_tokens output_tokens)

/-- Round half up to an integer, the rounding that the specification's "rounded to `d`
decimal places" names when applied to the exact value scaled by `10^d`. -/
def halfUp (q : ℚ) : ℤ := ⌊q + 1 / 2⌋

/-- JavaScript `String.prototype.trim`: white space and line terminators are removed from
both ends. -/
def jsTrim (s : String) : String :=
  String.mk ((s.toList.dropWhile isStrWhiteSpace).reverse.dropWhile isStrWhiteSpace).reverse

/-- The handler of `router.post('/rewrite')`; `openai` is the language-model API. The INSERT
of `AIRewrite.create` is taken to be accepted. -/
def rewrite (t : Table AIRewrite) (b : RewriteBody) (openai : String → UpstreamResult) :
    RewriteOutcome :=
  if !b.client_id.truthy || !b.term_key.truthy || !b.original_explanation.truthy then
    { table := t
      response :=
        ⟨400, false, .error "client_id, term_key, and original_explanation are required"⟩
      calls := [] }
  else
    let prompt := rewritePrompt b
    match openai prompt with
    | .ok completion =>
      let rewritten_explanation := jsTrim completion.content
      let tokens_used := completion.usage.total_tokens
      let cost := cost_usd completion.usage.prompt_tokens completion.usage.completion_tokens
      { table := t.create (fun id =>
          { id := id, client_id := b.client_id, term_key := b.term_key,
            original_explanation := b.original_explanation,
            rewritten_explanation := rewritten_explanation, model := "gpt-3.5-turbo",
            tokens_used := tokens_used, cost_usd := cost })
        response :=
          ⟨200, true,
            .ok { rewrite_id := t.nextId, rewritten_explanation := rewritten_explanation,
                  tokens_used := tokens_used,
                  cost_usd := F64.parseFloatFixed 6 cost }⟩
        calls := [prompt] }
    | .apiError status message =>
      { table := t, response := ⟨status, false, .error ("OpenAI API error: " ++ message)⟩,
        calls := [prompt] }
    | .failure =>
      { table := t, response := ⟨500, false, .error "Failed to generate AI rewrite"⟩,
        calls := [prompt] }

/-! ## Sample data -/

/-- A lookup body carrying only the two required fields. -/
def sampleLookup : LookupBody :=
  { client_id := .str "c1", term_key := .str "apr", term_display := .undefined,
    complexity_level := .undefined, page_url := .undefined, page_context := .undefined,
    found := .undefined }

/-- A store with a TermLookup row of client `c1` and no User row. -/
def orphanStore : Store :=
  { Store.empty with
    termLookups :=
      ⟨[{ id := 1, client_id := .str "c1", term_key := .str "apr", term_display := .str "APR",
          complexity_level := .str "simple", page_url := .null, page_context := .null,
          found := true, lookup_timestamp := 0 }], 2⟩ }

/-- A feedback body with the given `feedback_type`. -/
def sampleSubmit (feedback_type : JSVal) : SubmitBody :=
  { client_id := .str "c1", term_key := .str "apr", feedback_type := feedback_type,
    complexity_level := .undefined, comment := .undefined }

/-- A lookup body for a term that the glossary lacks. -/
def sampleMissing : LookupBody := { sampleLookup with term_key := .str "zzz", found := .bool false }

/-- A text of 256 letters, one more than a `STRING(255)` column holds. -/
def longText : String := String.mk (List.replicate 256 'a')

/-- Users with 3, 7, 7, 60 and 0 lookups. -/
def sampleUsers : List User :=
  [⟨1, .str "a", 0, 0, 3⟩, ⟨2, .str "b", 0, 0, 7⟩, ⟨3, .str "c", 0, 0, 7⟩,
   ⟨4, .str "d", 0, 0, 60⟩, ⟨5, .str "e", 0, 0, 0⟩]

/-- Lookup row with the given id, client, term and `found`. -/
def sampleRow (id : Nat) (client term : String) (found : Bool) : TermLookup :=
  { id := id, client_id := .str client, term_key := .str term, term_display := .str term,
    complexity_level := .str "simple", page_url := .null, page_context := .null,
    found := found, lookup_timestamp := id }

/-- Three found lookups of `apr` by two clients, and lookups of `zzz` that were not found. -/
def sampleRows : List TermLookup :=
  [sampleRow 1 "a" "apr" true, sampleRow 2 "b" "apr" true, sampleRow 3 "a" "apr" true,
   sampleRow 4 "a" "zzz" false, sampleRow 5 "b" "zzz" false, sampleRow 6 "c" "apr" false]

/-- A rewrite body with the given explanation. -/
def sampleRewrite (original_explanation : JSVal) : RewriteBody :=
  { client_id := .str "c1", term_key := .str "apr", term_display := .undefined,
    original_explanation := original_explanation, complexity_level := .undefined,
    user_context := .undefined }

/-- A language-model API that answers every prompt with the same completion. -/
def sampleOpenai (input_tokens output_tokens : Nat) : String → UpstreamResult :=
  fun _ => .ok ⟨" A yearly rate. ", ⟨input_tokens, output_tokens, input_tokens + output_tokens⟩⟩

/-- An AIRewrite table that already holds a row. -/
def sampleRewrites : Table AIRewrite :=
  ⟨[{ id := 1, client_id := .str "c0", term_key := .str "apr",
      original_explanation := .str "Annual percentage rate.",
      rewritten_explanation := "A yearly rate.", model := "gpt-3.5-turbo", tokens_used := 150,
      cost_usd := 0 }], 2⟩

/-! # Theorems -/

/-! ## Lemmas on the lookup route -/

theorem JSVal.keyString_spec {n : Nat} {v : JSVal} (h : v.keyString n = true) :
    v.truthy = true ∧ whereOk v = true ∧ fitsString n v = true ∧ v.stored = v := by
  cases v with
  | str s =>
    simp only [JSVal.keyString, Bool.and_eq_true, decide_eq_true_eq] at h
    obtain ⟨⟨h1, h2⟩, h3⟩ := h
    refine ⟨by simpa [JSVal.truthy] using h1, by simpa [whereOk] using h2, ?_, rfl⟩
    simp [fitsString, JSVal.bindText, h2, h3]
  | undefined => simp [JSVal.keyString] at h
  | null => simp [JSVal.keyString] at h
  | bool b => simp [JSVal.keyString] at h
  | num k => simp [JSVal.keyString] at h

theorem record_lookup_invalid (s : Store) (b : LookupBody) (now : Nat) (h : ¬ b.valid) :
    record_lookup s b now = (s, ⟨400, false, .error "client_id and term_key are required"⟩) := by
  unfold LookupBody.valid at h
  unfold record_lookup
  rw [if_pos]
  by_cases h1 : b.client_id.truthy = true
  · have h2 : b.term_key.truthy = false := by
      cases hk : b.term_key.truthy
      · rfl
      · exact absurd ⟨h1, hk⟩ h
    simp [h2]
  · simp at h1
    simp [h1]

theorem upsertUser_eq_some (t : Table User) (c : JSVal) (now : Nat) (r : Table User × User)
    (h : upsertUser t c now = some r) : r = upsertUserRows t c now := by
  unfold upsertUser at h
  split at h
  · exact Option.noConfusion h
  · split at h
    · exact Option.noConfusion h
    · exact (Option.some.inj h).symm

theorem upsertUser_of_fits (t : Table User) (c : JSVal) (now : Nat)
    (hw : whereOk c = true) (hf : fitsString 255 c = true) :
    upsertUser t c now = some (upsertUserRows t c now) := by
  simp [upsertUser, hw, hf]

theorem upsertMissingTerm_eq_some (t : Table MissingTerm) (b : LookupBody) (now : Nat)
    (r : Table MissingTerm) (h : upsertMissingTerm t b now = some r) :
    r = upsertMissingTermRows t b now := by
  unfold upsertMissingTerm at h
  split at h
  · exact Option.noConfusion h
  · split at h
    · exact Option.noConfusion h
    · exact (Option.some.inj h).symm

theorem LookupBody.inRange_valid {b : LookupBody} (h : b.inRange) : b.valid :=
  ⟨(JSVal.keyString_spec h.1).1, (JSVal.keyString_spec h.2.1).1⟩

theorem lookupRowFits_of_inRange {b : LookupBody} (h : b.inRange) : lookupRowFits b = true := by
  obtain ⟨h1, h2, h3, h4, h5, h6⟩ := h
  simp [lookupRowFits, (JSVal.keyString_spec h1).2.2.1, (JSVal.keyString_spec h2).2.2.1,
    h3, h4, h5, h6]

theorem upsertMissingTerm_of_inRange (t : Table MissingTerm) (b : LookupBody) (now : Nat)
    (h : b.inRange) : upsertMissingTerm t b now = some (upsertMissingTermRows t b now) := by
  obtain ⟨h1, h2, h3, h4, h5, h6⟩ := h
  simp [upsertMissingTerm, (JSVal.keyString_spec h2).2.1, (JSVal.keyString_spec h1).2.2.1,
    (JSVal.keyString_spec h2).2.2.1, h5, h6]

/-- A lookup whose fields are in range is answered 200 and writes all its rows. -/
theorem record_lookup_inRange (s : Store) (b : LookupBody) (now : Nat) (h : b.inRange) :
    record_lookup s b now =
      ({ s with
          users := (upsertUserRows s.users b.client_id now).1
          termLookups := s.termLookups.create (fun _ => lookupRow s.termLookups.nextId b now)
          missingTerms :=
            if b.found.isFalse then upsertMissingTermRows s.missingTerms b now
            else s.missingTerms },
        ⟨200, true, .lookup s.termLookups.nextId
          (upsertUserRows s.users b.client_id now).2.total_lookups⟩) := by
  have hv := LookupBody.inRange_valid h
  have hu := upsertUser_of_fits s.users b.client_id now (JSVal.keyString_spec h.1).2.1
    (JSVal.keyString_spec h.1).2.2.1
  have hm := upsertMissingTerm_of_inRange s.missingTerms b now h
  have hfit := lookupRowFits_of_inRange h
  obtain ⟨hv1, hv2⟩ := hv
  unfold record_lookup
  simp only [hv1, hv2, hu, hm, hfit, Bool.not_true, Bool.or_self, Bool.false_eq_true, if_false]
  by_cases hf : b.found.isFalse = true
  · simp [hf, lookupRow]
  · simp [hf, lookupRow]

/-- Whatever the request, each table is left as it was or holds what the statement that
reached it wrote. -/
theorem record_lookup_tables (s : Store) (b : LookupBody) (now : Nat) :
    ((record_lookup s b now).1.users = s.users ∨
        (record_lookup s b now).1.users = (upsertUserRows s.users b.client_id now).1) ∧
      ((record_lookup s b now).1.termLookups = s.termLookups ∨
        ((record_lookup s b now).1.termLookups =
            s.termLookups.create (fun _ => lookupRow s.termLookups.nextId b now) ∧
          (record_lookup s b now).1.users = (upsertUserRows s.users b.client_id now).1 ∧
          whereOk b.client_id = true)) ∧
      ((record_lookup s b now).1.missingTerms = s.missingTerms ∨
        ((record_lookup s b now).1.missingTerms = upsertMissingTermRows s.missingTerms b now ∧
          b.found.isFalse = true ∧ whereOk b.term_key = true ∧
          (record_lookup s b now).2.status = 200)) ∧
      (record_lookup s b now).1.feedback = s.feedback := by
  unfold record_lookup
  split
  · simp
  · cases hu : upsertUser s.users b.client_id now with
    | none => simp
    | some r =>
      obtain ⟨users, user⟩ := r
      have hr := upsertUser_eq_some _ _ _ _ hu
      have husers : users = (upsertUserRows s.users b.client_id now).1 := by rw [← hr]
      have hw : whereOk b.client_id = true := by
        unfold upsertUser at hu
        split at hu
        · exact Option.noConfusion hu
        · next h => simpa using h
      simp only
      split
      · simp [husers]
      · split
        · cases hm : upsertMissingTerm s.missingTerms b now with
          | none => simp [husers, hw]
          | some m =>
            have := upsertMissingTerm_eq_some _ _ _ _ hm
            have hwt : whereOk b.term_key = true := by
              unfold upsertMissingTerm at hm
              split at hm
              · exact Option.noConfusion hm
              · next h => simpa using h
            simp_all
        · simp [husers, hw]

/-! ## Required fields of the lookup route -/

theorem JSVal.truthy_of_missing (x : JSVal) (h : x.missing) : x.truthy = false := by
  rcases h with h | h | h <;> rw [h] <;> decide

theorem record_lookup_status_ne_400 (s : Store) (b : LookupBody) (now : Nat) (hv : b.valid) :
    (record_lookup s b now).2.status ≠ 400 := by
  obtain ⟨h1, h2⟩ := hv
  unfold record_lookup
  simp only [h1, h2, Bool.not_true, Bool.or_self, Bool.false_eq_true, if_false]
  cases upsertUser s.users b.client_id now with
  | none => simp [lookupFailed]
  | some r =>
    obtain ⟨users, user⟩ := r
    simp only
    split
    · simp [lookupFailed]
    · split
      · cases upsertMissingTerm s.missingTerms b now <;> simp [lookupFailed]
      · simp

/-- C8: a lookup request whose `client_id` or `term_key` is `undefined`, `null` or empty
is answered 400 with `success = false` and leaves the User, TermLookup and MissingTerm
tables unchanged; a request in which both are non-empty strings is not answered 400. -/
theorem record_lookup_required_fields (s : Store) (b : LookupBody) (now : Nat) :
    (b.client_id.missing ∨ b.term_key.missing →
        (record_lookup s b now).2.status = 400 ∧ (record_lookup s b now).2.success = false ∧
          (record_lookup s b now).1.users = s.users ∧
          (record_lookup s b now).1.termLookups = s.termLookups ∧
          (record_lookup s b now).1.missingTerms = s.missingTerms) ∧
      ((∃ c t : String, c ≠ "" ∧ t ≠ "" ∧ b.client_id = .str c ∧ b.term_key = .str t) →
        (record_lookup s b now).2.status ≠ 400) := by
  constructor
  · intro h
    have hnv : ¬ b.valid := by
      rintro ⟨h1, h2⟩
      rcases h with h | h
      · rw [JSVal.truthy_of_missing _ h] at h1; exact Bool.noConfusion h1
      · rw [JSVal.truthy_of_missing _ h] at h2; exact Bool.noConfusion h2
    rw [record_lookup_invalid s b now hnv]
    exact ⟨rfl, rfl, rfl, rfl, rfl⟩
  · rintro ⟨c, t, hc, ht, hbc, hbt⟩
    have hv : b.valid := by
      constructor
      · rw [hbc]; simpa [JSVal.truthy] using hc
      · rw [hbt]; simpa [JSVal.truthy] using ht
    exact record_lookup_status_ne_400 s b now hv

theorem record_lookup_required_fields_witness :
    ((record_lookup orphanStore { sampleLookup with term_key := .str "" } 5).2.status = 400 ∧
        (record_lookup orphanStore { sampleLookup with term_key := .str "" } 5).2.success = false ∧
        (record_lookup orphanStore { sampleLookup with term_key := .str "" } 5).1.users =
          orphanStore.users ∧
        (record_lookup orphanStore { sampleLookup with term_key := .str "" } 5).1.termLookups =
          orphanStore.termLookups ∧
        (record_lookup orphanStore { sampleLookup with term_key := .str "" } 5).1.missingTerms =
          orphanStore.missingTerms) ∧
      (record_lookup orphanStore sampleLookup 5).2.status ≠ 400 :=
  ⟨(record_lookup_required_fields orphanStore { sampleLookup with term_key := .str "" } 5).1
      (Or.inr (by decide)),
    (record_lookup_required_fields orphanStore sampleLookup 5).2
      ⟨"c1", "apr", by decide, by decide, rfl, rfl⟩⟩

/-! ## Repeated lookups of one client -/

theorem stored_of_whereOk {v : JSVal} (h : whereOk v = true) : v.stored = v := by
  cases v with
  | str s => rfl
  | undefined => simp [whereOk] at h
  | null => simp [whereOk] at h
  | bool b => simp [whereOk] at h
  | num n => simp [whereOk] at h

theorem upsertUserRows_filter_new (t : Table User) (c : JSVal) (now : Nat)
    (h : ∀ u ∈ t.rows, u.client_id ≠ c) :
    (upsertUserRows t c now).1.rows.filter (fun u => u.client_id = c) =
      [{ id := t.nextId, client_id := c, first_seen_at := now, last_seen_at := now,
         total_lookups := 1 }] := by
  have hnone : t.rows.find? (fun u => u.client_id = c) = none := by
    rw [List.find?_eq_none]
    intro u hu
    simpa using h u hu
  have hfil : t.rows.filter (fun u => u.client_id = c) = [] := by
    rw [List.filter_eq_nil_iff]
    intro u hu
    simpa using h u hu
  simp [upsertUserRows, hnone, Table.create, List.filter_append, hfil]

theorem upsertUserRows_filter_existing (t : Table User) (c : JSVal) (now : Nat) (u : User)
    (h : t.rows.filter (fun u => u.client_id = c) = [u]) :
    (upsertUserRows t c now).1.rows.filter (fun u => u.client_id = c) =
      [{ u with last_seen_at := now, total_lookups := u.total_lookups + 1 }] := by
  have hu : u ∈ t.rows.filter (fun u => u.client_id = c) := by rw [h]; simp
  have huc : u.client_id = c := by simpa using (List.mem_filter.mp hu).2
  cases hf : t.rows.find? (fun u => u.client_id = c) with
  | none =>
    rw [List.find?_eq_none] at hf
    have := hf u (List.mem_filter.mp hu).1
    simp [huc] at this
  | some v =>
    have hv : v ∈ t.rows.filter (fun u => u.client_id = c) := by
      rw [List.mem_filter]
      exact ⟨List.mem_of_find?_eq_some hf, by simpa using List.find?_some hf⟩
    rw [h] at hv
    have hvu : v = u := by simpa using hv
    subst hvu
    simp only [upsertUserRows, hf]
    have hcomm : ∀ l : List User,
        (l.map (fun r => if r.id = v.id then
            ({ r with last_seen_at := now, total_lookups := v.total_lookups + 1 } : User)
          else r)).filter (fun u => u.client_id = c) =
        (l.filter (fun u => u.client_id = c)).map (fun r => if r.id = v.id then
            ({ r with last_seen_at := now, total_lookups := v.total_lookups + 1 } : User)
          else r) := by
      intro l
      induction l with
      | nil => rfl
      | cons a l ih =>
        by_cases ha : a.client_id = c <;> by_cases hid : a.id = v.id <;>
          simp [List.filter_cons, ha, hid, ih]
    rw [hcomm, h]
    simp

theorem record_lookup_termLookups_filter (s : Store) (b : LookupBody) (now : Nat)
    (h : b.inRange) :
    ((record_lookup s b now).1.termLookups.rows.filter (fun l => l.client_id = b.client_id)).length =
      (s.termLookups.rows.filter (fun l => l.client_id = b.client_id)).length + 1 := by
  rw [record_lookup_inRange s b now h]
  simp [Table.create, List.filter_append, lookupRow, (JSVal.keyString_spec h.1).2.2.2]

theorem runLookups_existing (c : JSVal) (reqs : List (LookupBody × Nat))
    (hreq : ∀ r ∈ reqs, r.1.client_id = c ∧ r.1.inRange) (s : Store) (u : User)
    (h : s.users.rows.filter (fun u => u.client_id = c) = [u]) :
    (∃ v, (runLookups s reqs).users.rows.filter (fun u => u.client_id = c) = [v] ∧
        v.total_lookups = u.total_lookups + reqs.length) ∧
      ((runLookups s reqs).termLookups.rows.filter (fun l => l.client_id = c)).length =
        (s.termLookups.rows.filter (fun l => l.client_id = c)).length + reqs.length := by
  induction reqs generalizing s u with
  | nil => exact ⟨⟨u, by simpa [runLookups] using h, by simp⟩, by simp [runLookups]⟩
  | cons r rest ih =>
    obtain ⟨b, now⟩ := r
    obtain ⟨hc, hv⟩ := hreq (b, now) (List.mem_cons_self _ _)
    simp only at hc hv
    have hrest : ∀ r ∈ rest, r.1.client_id = c ∧ r.1.inRange :=
      fun r hr => hreq r (List.mem_cons_of_mem _ hr)
    have hstep : (record_lookup s b now).1.users.rows.filter (fun u => u.client_id = c) =
        [{ u with last_seen_at := now, total_lookups := u.total_lookups + 1 }] := by
      rw [record_lookup_inRange s b now hv, hc]
      exact upsertUserRows_filter_existing s.users c now u h
    have hlk := record_lookup_termLookups_filter s b now hv
    rw [hc] at hlk
    obtain ⟨⟨v, hv1, hv2⟩, hcount⟩ := ih hrest (record_lookup s b now).1 _ hstep
    refine ⟨⟨v, by simpa [runLookups] using hv1, ?_⟩, ?_⟩
    · rw [hv2]; simp only [List.length_cons]; push_cast; ring
    · simp only [runLookups, List.length_cons]
      rw [hcount, hlk]; ring

/-- From any store with no User row for `c`, `N ≥ 1` in-range lookups for `c` leave one
User row for `c`, with `total_lookups = N`, and add `N` TermLookup rows of `c`. -/
theorem runLookups_new_client (s : Store) (c : JSVal)
    (reqs : List (LookupBody × Nat)) (hN : 1 ≤ reqs.length)
    (hnew : s.users.rows.filter (fun u => u.client_id = c) = [])
    (hreq : ∀ r ∈ reqs, r.1.client_id = c ∧ r.1.inRange) :
    (∃ u, (runLookups s reqs).users.rows.filter (fun u => u.client_id = c) = [u] ∧
        u.total_lookups = reqs.length) ∧
      ((runLookups s reqs).termLookups.rows.filter (fun l => l.client_id = c)).length =
        (s.termLookups.rows.filter (fun l => l.client_id = c)).length + reqs.length := by
  cases reqs with
  | nil => simp at hN
  | cons r rest =>
    obtain ⟨b, now⟩ := r
    obtain ⟨hc, hv⟩ := hreq (b, now) (List.mem_cons_self _ _)
    simp only at hc hv
    have hrest : ∀ r ∈ rest, r.1.client_id = c ∧ r.1.inRange :=
      fun r hr => hreq r (List.mem_cons_of_mem _ hr)
    have hnew' : ∀ u ∈ s.users.rows, u.client_id ≠ c := by
      intro u hu huc
      have : u ∈ s.users.rows.filter (fun u => u.client_id = c) :=
        List.mem_filter.mpr ⟨hu, by simpa using huc⟩
      rw [hnew] at this
      simp at this
    have hstep : (record_lookup s b now).1.users.rows.filter (fun u => u.client_id = c) =
        [{ id := s.users.nextId, client_id := c, first_seen_at := now, last_seen_at := now,
           total_lookups := 1 }] := by
      rw [record_lookup_inRange s b now hv, hc]
      exact upsertUserRows_filter_new s.users c now hnew'
    have hlk := record_lookup_termLookups_filter s b now hv
    rw [hc] at hlk
    obtain ⟨⟨v, hv1, hv2⟩, hcount⟩ :=
      runLookups_existing c rest hrest (record_lookup s b now).1 _ hstep
    refine ⟨⟨v, by simpa [runLookups] using hv1, ?_⟩, ?_⟩
    · rw [hv2]; simp only [List.length_cons]; push_cast; ring
    · simp only [runLookups, List.length_cons]
      rw [hcount, hlk]; ring

theorem upsertUserRows_keeps_clients (t : Table User) (c : JSVal) (now : Nat) :
    (∃ u ∈ (upsertUserRows t c now).1.rows, u.client_id = c) ∧
      ∀ v ∈ t.rows, ∃ u ∈ (upsertUserRows t c now).1.rows, u.client_id = v.client_id := by
  cases hf : t.rows.find? (fun u => u.client_id = c) with
  | none =>
    simp only [upsertUserRows, hf, Table.create]
    refine ⟨⟨_, List.mem_append_right _ (List.mem_singleton_self _), rfl⟩, ?_⟩
    intro v hv
    exact ⟨v, List.mem_append_left _ hv, rfl⟩
  | some w =>
    simp only [upsertUserRows, hf]
    have hkeep : ∀ v ∈ t.rows, ∃ u ∈ t.rows.map (fun r => if r.id = w.id then
        ({ r with last_seen_at := now, total_lookups := w.total_lookups + 1 } : User)
        else r), u.client_id = v.client_id := by
      intro v hv
      refine ⟨_, List.mem_map_of_mem _ hv, ?_⟩
      by_cases hid : v.id = w.id <;> simp [hid]
    refine ⟨?_, hkeep⟩
    obtain ⟨u, hu, huc⟩ := hkeep w (List.mem_of_find?_eq_some hf)
    exact ⟨u, hu, huc.trans (by simpa using List.find?_some hf)⟩

theorem submit_feedback_tables (s : Store) (b : SubmitBody) :
    (submit_feedback s b).1.users = s.users ∧
      (submit_feedback s b).1.termLookups = s.termLookups ∧
      (submit_feedback s b).1.missingTerms = s.missingTerms := by
  unfold submit_feedback
  split
  · exact ⟨rfl, rfl, rfl⟩
  · split
    · exact ⟨rfl, rfl, rfl⟩
    · split
      · exact ⟨rfl, rfl, rfl⟩
      · exact ⟨rfl, rfl, rfl⟩

theorem step_lookupsHaveUser (s : Store) (r : Request) (h : s.lookupsHaveUser) :
    (step s r).lookupsHaveUser := by
  cases r with
  | lookup b now =>
    obtain ⟨hu, hl, _, _⟩ := record_lookup_tables s b now
    obtain ⟨hnew, hold⟩ := upsertUserRows_keeps_clients s.users b.client_id now
    simp only [step, Store.lookupsHaveUser]
    intro l hlm
    rcases hl with hl | ⟨hl, hu', hw⟩
    · rw [hl] at hlm
      obtain ⟨v, hv1, hv2⟩ := h l hlm
      rcases hu with hu | hu
      · rw [hu]; exact ⟨v, hv1, hv2⟩
      · rw [hu]
        obtain ⟨u, hu1, hu2⟩ := hold v hv1
        exact ⟨u, hu1, hu2.trans hv2⟩
    · rw [hl, Table.create] at hlm
      rw [hu']
      rcases List.mem_append.mp hlm with hlm | hlm
      · obtain ⟨v, hv1, hv2⟩ := h l hlm
        obtain ⟨u, hu1, hu2⟩ := hold v hv1
        exact ⟨u, hu1, hu2.trans hv2⟩
      · rw [List.mem_singleton] at hlm
        subst hlm
        obtain ⟨u, hu1, hu2⟩ := hnew
        exact ⟨u, hu1, by simpa [lookupRow, stored_of_whereOk hw] using hu2⟩
  | submit b =>
    obtain ⟨h1, h2, _⟩ := submit_feedback_tables s b
    simp only [step, Store.lookupsHaveUser, h1, h2]
    exact h

theorem run_lookupsHaveUser (reqs : List Request) (s : Store) (h : s.lookupsHaveUser) :
    (run s reqs).lookupsHaveUser := by
  induction reqs generalizing s with
  | nil => exact h
  | cons r rest ih => exact ih (step s r) (step_lookupsHaveUser s r h)

theorem reachable_no_user_no_lookups (reqs : List Request) (c : JSVal)
    (h : (run Store.empty reqs).users.rows.filter (fun u => u.client_id = c) = []) :
    (run Store.empty reqs).termLookups.rows.filter (fun l => l.client_id = c) = [] := by
  have hinv : (run Store.empty reqs).lookupsHaveUser :=
    run_lookupsHaveUser reqs Store.empty (by intro l hl; simp [Store.empty] at hl)
  rw [List.filter_eq_nil_iff] at h ⊢
  intro l hl hlc
  obtain ⟨u, hu, huc⟩ := hinv l hl
  exact h u hu (by simpa [huc] using hlc)

/-- C1 (as stated, refuted): two valid lookups of a new client `c1` with a `term_key` of
256 letters are both answered 500; they leave the User row of `c1` with
`total_lookups = 2` and no TermLookup row of `c1`, not two. -/
theorem record_lookup_long_term_counterexample :
    ({ sampleLookup with term_key := .str longText } : LookupBody).valid ∧
      (record_lookup Store.empty { sampleLookup with term_key := .str longText } 5).2.status =
        500 ∧
      ((runLookups Store.empty
          [({ sampleLookup with term_key := .str longText }, 5),
           ({ sampleLookup with term_key := .str longText }, 9)]).users.rows.map
        (fun u => (u.client_id, u.total_lookups))) = [(JSVal.str "c1", 2)] ∧
      ((runLookups Store.empty
          [({ sampleLookup with term_key := .str longText }, 5),
           ({ sampleLookup with term_key := .str longText }, 9)]).termLookups.rows.filter
        (fun l => l.client_id = JSVal.str "c1")).length = 0 := by
  decide!

/-- C1 (amended): in a store reached from the empty store by lookup and submit requests
and holding no User row for `c`, `N ≥ 1` lookups handled one after another, each with
`client_id = c` and its fields in range (`client_id` and `term_key` non-empty strings of
at most 255 characters, the other fields fitting their columns), leave exactly one User
row for `c`, with `total_lookups = N`, and exactly `N` TermLookup rows with
`client_id = c`. -/
theorem record_lookup_repeat_new_client (trace : List Request) (c : JSVal)
    (reqs : List (LookupBody × Nat)) (hN : 1 ≤ reqs.length)
    (hnew : (run Store.empty trace).users.rows.filter (fun u => u.client_id = c) = [])
    (hreq : ∀ r ∈ reqs, r.1.client_id = c ∧ r.1.inRange) :
    (∃ u, (runLookups (run Store.empty trace) reqs).users.rows.filter
          (fun u => u.client_id = c) = [u] ∧
        u.total_lookups = reqs.length) ∧
      ((runLookups (run Store.empty trace) reqs).termLookups.rows.filter
        (fun l => l.client_id = c)).length = reqs.length := by
  obtain ⟨h1, h2⟩ := runLookups_new_client (run Store.empty trace) c reqs hN hnew hreq
  refine ⟨h1, ?_⟩
  rw [h2, reachable_no_user_no_lookups trace c hnew]
  simp

theorem record_lookup_repeat_new_client_witness :
    (∃ u, (runLookups (run Store.empty [.submit (sampleSubmit (.str "confused"))])
            [(sampleLookup, 5), (sampleLookup, 9)]).users.rows.filter
          (fun u => u.client_id = JSVal.str "c1") = [u] ∧
        u.total_lookups = [(sampleLookup, 5), (sampleLookup, 9)].length) ∧
      ((runLookups (run Store.empty [.submit (sampleSubmit (.str "confused"))])
          [(sampleLookup, 5), (sampleLookup, 9)]).termLookups.rows.filter
        (fun l => l.client_id = JSVal.str "c1")).length =
        [(sampleLookup, 5), (sampleLookup, 9)].length :=
  record_lookup_repeat_new_client [.submit (sampleSubmit (.str "confused"))] (JSVal.str "c1")
    [(sampleLookup, 5), (sampleLookup, 9)] (by decide) (by decide) (by decide)

/-! ## Uniqueness of `client_id` and `missing_text` -/

theorem upsertUserRows_pairwise (t : Table User) (c : JSVal) (now : Nat)
    (h : t.rows.Pairwise (fun a b => a.client_id ≠ b.client_id)) :
    (upsertUserRows t c now).1.rows.Pairwise (fun a b => a.client_id ≠ b.client_id) := by
  cases hf : t.rows.find? (fun u => u.client_id = c) with
  | none =>
    simp only [upsertUserRows, hf, Table.create]
    rw [List.find?_eq_none] at hf
    rw [List.pairwise_append]
    refine ⟨h, List.pairwise_singleton _ _, ?_⟩
    intro a ha b hb
    rw [List.mem_singleton] at hb
    subst hb
    simpa using hf a ha
  | some v =>
    simp only [upsertUserRows, hf]
    rw [List.pairwise_map]
    refine h.imp ?_
    intro a b hab
    by_cases ha : a.id = v.id <;> by_cases hb : b.id = v.id <;> simpa [ha, hb] using hab

theorem upsertMissingTermRows_pairwise (t : Table MissingTerm) (b : LookupBody) (now : Nat)
    (hw : whereOk b.term_key = true)
    (h : t.rows.Pairwise (fun a b => a.missing_text ≠ b.missing_text)) :
    (upsertMissingTermRows t b now).rows.Pairwise
      (fun a b => a.missing_text ≠ b.missing_text) := by
  cases hf : t.rows.find? (fun m => m.missing_text = b.term_key) with
  | none =>
    simp only [upsertMissingTermRows, hf, Table.create]
    rw [List.find?_eq_none] at hf
    rw [List.pairwise_append]
    refine ⟨h, List.pairwise_singleton _ _, ?_⟩
    intro a ha x hx
    rw [List.mem_singleton] at hx
    subst hx
    simpa [stored_of_whereOk hw] using hf a ha
  | some v =>
    simp only [upsertMissingTermRows, hf]
    rw [List.pairwise_map]
    refine h.imp ?_
    intro x y hxy
    by_cases hx : x.id = v.id <;> by_cases hy : y.id = v.id <;> simpa [hx, hy] using hxy

theorem step_uniqueKeys (s : Store) (r : Request) (h : s.uniqueKeys) : (step s r).uniqueKeys := by
  obtain ⟨hu, hm⟩ := h
  cases r with
  | lookup b now =>
    obtain ⟨h1, _, h3, _⟩ := record_lookup_tables s b now
    simp only [step, Store.uniqueKeys]
    constructor
    · rcases h1 with h1 | h1
      · rw [h1]; exact hu
      · rw [h1]; exact upsertUserRows_pairwise _ _ _ hu
    · rcases h3 with h3 | ⟨h3, _, hw, _⟩
      · rw [h3]; exact hm
      · rw [h3]; exact upsertMissingTermRows_pairwise _ _ _ hw hm
  | submit b =>
    obtain ⟨h1, _, h3⟩ := submit_feedback_tables s b
    simp only [step, Store.uniqueKeys, h1, h3]
    exact ⟨hu, hm⟩

theorem run_uniqueKeys (reqs : List Request) (s : Store) (h : s.uniqueKeys) :
    (run s reqs).uniqueKeys := by
  induction reqs generalizing s with
  | nil => exact h
  | cons r rest ih => exact ih (step s r) (step_uniqueKeys s r h)

/-- C12: in every store reached from the empty store by a sequence of lookup and submit
requests handled one after another, no two User rows have the same `client_id` and no
two MissingTerm rows have the same `missing_text`. -/
theorem reachable_unique_client_id_missing_text (reqs : List Request) :
    (run Store.empty reqs).users.rows.Pairwise (fun a b => a.client_id ≠ b.client_id) ∧
      (run Store.empty reqs).missingTerms.rows.Pairwise
        (fun a b => a.missing_text ≠ b.missing_text) :=
  run_uniqueKeys reqs Store.empty ⟨List.Pairwise.nil, List.Pairwise.nil⟩

/-! ## Submit route -/

theorem validTypesIncludes_iff (x : JSVal) :
    validTypesIncludes x = true ↔
      x = .str "thumbs_up" ∨ x = .str "thumbs_down" ∨ x = .str "confused" := by
  simp only [validTypesIncludes, validTypes, List.any_cons, List.any_nil, Bool.or_false,
    Bool.or_eq_true, beq_iff_eq]
  constructor <;> intro h <;> rcases h with h | h | h <;> simp [h]

/-- C2 (as stated, refuted): a feedback request with `feedback_type = confused`, a
`client_id` of 256 letters and a `term_key` is answered 500 and inserts no Feedback
row. -/
theorem submit_feedback_long_client_counterexample :
    ({ sampleSubmit (.str "confused") with client_id := .str longText } : SubmitBody).client_id.truthy
        = true ∧
      (submit_feedback Store.empty
        { sampleSubmit (.str "confused") with client_id := .str longText }).2.status = 500 ∧
      (submit_feedback Store.empty
        { sampleSubmit (.str "confused") with client_id := .str longText }).1.feedback.rows =
        [] := by
  decide!

/-- C2 (amended): with `client_id` and `term_key` present, a non-empty `feedback_type`
outside `thumbs_up`, `thumbs_down`, `confused` is answered 400 with `success = false`
and the Feedback table unchanged; a `feedback_type` among the three appends exactly one
Feedback row carrying it when the fields fit their columns (`client_id` and `term_key`
at most 255 characters, `complexity_level` at most 50), and otherwise is answered 500
with the Feedback table unchanged. -/
theorem submit_feedback_type_check (s : Store) (b : SubmitBody)
    (hc : b.client_id.truthy = true) (ht : b.term_key.truthy = true) :
    (b.feedback_type.truthy = true →
        ¬ (b.feedback_type = .str "thumbs_up" ∨ b.feedback_type = .str "thumbs_down" ∨
            b.feedback_type = .str "confused") →
        (submit_feedback s b).2.status = 400 ∧ (submit_feedback s b).2.success = false ∧
          (submit_feedback s b).1.feedback = s.feedback) ∧
      ((b.feedback_type = .str "thumbs_up" ∨ b.feedback_type = .str "thumbs_down" ∨
            b.feedback_type = .str "confused") →
        (feedbackRowFits b = true →
          (submit_feedback s b).2.status = 200 ∧
          ∃ row : Feedback, (submit_feedback s b).1.feedback.rows = s.feedback.rows ++ [row] ∧
            row.feedback_type = b.feedback_type) ∧
        (feedbackRowFits b = false →
          (submit_feedback s b).2.status = 500 ∧
          (submit_feedback s b).1.feedback = s.feedback)) := by
  constructor
  · intro hf hnot
    have hinc : validTypesIncludes b.feedback_type = false := by
      cases h : validTypesIncludes b.feedback_type
      · rfl
      · exact absurd ((validTypesIncludes_iff _).mp h) hnot
    simp [submit_feedback, hc, ht, hf, hinc]
  · intro hin
    have hinc : validTypesIncludes b.feedback_type = true := (validTypesIncludes_iff _).mpr hin
    have hf : b.feedback_type.truthy = true := by
      rcases hin with h | h | h <;> rw [h] <;> decide
    have hst : b.feedback_type.stored = b.feedback_type := by
      rcases hin with h | h | h <;> rw [h] <;> rfl
    constructor
    · intro hfit
      simp [submit_feedback, hc, ht, hf, hinc, hfit, Table.create, hst]
    · intro hfit
      simp [submit_feedback, hc, ht, hf, hinc, hfit]

theorem submit_feedback_type_check_witness :
    ((submit_feedback Store.empty (sampleSubmit (.str "meh"))).2.status = 400 ∧
        (submit_feedback Store.empty (sampleSubmit (.str "meh"))).2.success = false ∧
        (submit_feedback Store.empty (sampleSubmit (.str "meh"))).1.feedback =
          Store.empty.feedback) ∧
      ((submit_feedback Store.empty (sampleSubmit (.str "confused"))).2.status = 200 ∧
        ∃ row : Feedback,
          (submit_feedback Store.empty (sampleSubmit (.str "confused"))).1.feedback.rows =
            Store.empty.feedback.rows ++ [row] ∧
          row.feedback_type = (sampleSubmit (.str "confused")).feedback_type) :=
  ⟨(submit_feedback_type_check Store.empty (sampleSubmit (.str "meh")) (by decide)
      (by decide)).1 (by decide) (by decide),
    ((submit_feedback_type_check Store.empty (sampleSubmit (.str "confused")) (by decide)
      (by decide)).2 (by decide)).1 (by decide)⟩

/-! ## Missing-term tracking -/

theorem missingTerms_of_found_false (s : Store) (b : LookupBody) (now : Nat) (hv : b.inRange)
    (hf : b.found = .bool false) :
    (record_lookup s b now).1.missingTerms = upsertMissingTermRows s.missingTerms b now := by
  rw [record_lookup_inRange s b now hv]
  simp [hf, JSVal.isFalse]

theorem upsertMissingTermRows_new (t : Table MissingTerm) (b : LookupBody) (now : Nat)
    (h : t.rows.filter (fun m => m.missing_text = b.term_key) = []) :
    upsertMissingTermRows t b now =
      t.create (fun id =>
        { id := id, client_id := b.client_id.stored, missing_text := b.term_key.stored,
          page_url := b.page_url.stored, page_context := b.page_context.stored,
          lookup_count := 1, first_seen_at := now, last_seen_at := now }) := by
  have hnone : t.rows.find? (fun m => m.missing_text = b.term_key) = none := by
    rw [List.find?_eq_none]
    intro m hm
    rw [List.filter_eq_nil_iff] at h
    exact h m hm
  simp [upsertMissingTermRows, hnone]

theorem upsertMissingTermRows_existing (t : Table MissingTerm) (b : LookupBody) (now : Nat)
    (m : MissingTerm) (h : t.rows.filter (fun m => m.missing_text = b.term_key) = [m]) :
    (upsertMissingTermRows t b now).rows.length = t.rows.length ∧
      (upsertMissingTermRows t b now).rows.filter (fun m => m.missing_text = b.term_key) =
        [{ m with lookup_count := m.lookup_count + 1, last_seen_at := now }] := by
  have hm : m ∈ t.rows.filter (fun m => m.missing_text = b.term_key) := by rw [h]; simp
  cases hf : t.rows.find? (fun m => m.missing_text = b.term_key) with
  | none =>
    rw [List.find?_eq_none] at hf
    exact absurd (List.mem_filter.mp hm).2 (hf m (List.mem_filter.mp hm).1)
  | some v =>
    have hv : v ∈ t.rows.filter (fun m => m.missing_text = b.term_key) := by
      rw [List.mem_filter]
      exact ⟨List.mem_of_find?_eq_some hf, by simpa using List.find?_some hf⟩
    rw [h] at hv
    have hvm : v = m := by simpa using hv
    subst hvm
    simp only [upsertMissingTermRows, hf]
    refine ⟨by simp, ?_⟩
    have hcomm : ∀ l : List MissingTerm,
        (l.map (fun r => if r.id = v.id then
            ({ r with lookup_count := v.lookup_count + 1, last_seen_at := now } : MissingTerm)
          else r)).filter (fun m => m.missing_text = b.term_key) =
        (l.filter (fun m => m.missing_text = b.term_key)).map (fun r => if r.id = v.id then
            ({ r with lookup_count := v.lookup_count + 1, last_seen_at := now } : MissingTerm)
          else r) := by
      intro l
      induction l with
      | nil => rfl
      | cons a l ih =>
        by_cases ha : a.missing_text = b.term_key <;> by_cases hid : a.id = v.id <;>
          simp [List.filter_cons, ha, hid, ih]
    rw [hcomm, h]
    simp

/-- C3 (as stated, refuted): a valid lookup with `found = false` of a term text of 256
letters, for which the empty store holds no MissingTerm row, is answered 500 and creates
no MissingTerm row. -/
theorem record_lookup_missing_long_term_counterexample :
    ({ sampleMissing with term_key := .str longText } : LookupBody).valid ∧
      ({ sampleMissing with term_key := .str longText } : LookupBody).found = .bool false ∧
      (record_lookup Store.empty { sampleMissing with term_key := .str longText } 5).2.status =
        500 ∧
      (record_lookup Store.empty
        { sampleMissing with term_key := .str longText } 5).1.missingTerms.rows = [] := by
  decide!

/-- C3 (amended): when no MissingTerm row has `missing_text = t`, a lookup of `t` with
`found = false` whose fields are in range (`client_id` and `t` non-empty strings of at
most 255 characters, the other fields fitting their columns) appends a MissingTerm row
with `missing_text = t` and `lookup_count = 1`; a second such lookup adds no MissingTerm
row and leaves the row of `t` with `lookup_count = 2`, `last_seen_at` the time of the
second request and `first_seen_at` that of the first. -/
theorem record_lookup_missing_term_twice (s : Store) (t : JSVal) (b1 b2 : LookupBody)
    (now1 now2 : Nat) (hv1 : b1.inRange) (hv2 : b2.inRange)
    (ht1 : b1.term_key = t) (ht2 : b2.term_key = t)
    (hf1 : b1.found = .bool false) (hf2 : b2.found = .bool false)
    (hnone : s.missingTerms.rows.filter (fun m => m.missing_text = t) = []) :
    (record_lookup s b1 now1).1.missingTerms.rows =
        s.missingTerms.rows ++
          [{ id := s.missingTerms.nextId, client_id := b1.client_id, missing_text := t,
             page_url := b1.page_url.stored, page_context := b1.page_context.stored,
             lookup_count := 1, first_seen_at := now1, last_seen_at := now1 }] ∧
      (record_lookup (record_lookup s b1 now1).1 b2 now2).1.missingTerms.rows.length =
        (record_lookup s b1 now1).1.missingTerms.rows.length ∧
      (record_lookup (record_lookup s b1 now1).1 b2 now2).1.missingTerms.rows.filter
          (fun m => m.missing_text = t) =
        [{ id := s.missingTerms.nextId, client_id := b1.client_id, missing_text := t,
           page_url := b1.page_url.stored, page_context := b1.page_context.stored,
           lookup_count := 2, first_seen_at := now1, last_seen_at := now2 }] := by
  subst ht1
  have hc : b1.client_id.stored = b1.client_id := (JSVal.keyString_spec hv1.1).2.2.2
  have hk : b1.term_key.stored = b1.term_key := (JSVal.keyString_spec hv1.2.1).2.2.2
  have h1 : (record_lookup s b1 now1).1.missingTerms.rows =
      s.missingTerms.rows ++
        [{ id := s.missingTerms.nextId, client_id := b1.client_id, missing_text := b1.term_key,
           page_url := b1.page_url.stored, page_context := b1.page_context.stored,
           lookup_count := 1, first_seen_at := now1, last_seen_at := now1 }] := by
    rw [missingTerms_of_found_false s b1 now1 hv1 hf1, upsertMissingTermRows_new _ _ _ hnone,
      hc, hk]
    rfl
  have hfil : (record_lookup s b1 now1).1.missingTerms.rows.filter
      (fun m => m.missing_text = b2.term_key) =
      [{ id := s.missingTerms.nextId, client_id := b1.client_id, missing_text := b1.term_key,
         page_url := b1.page_url.stored, page_context := b1.page_context.stored,
         lookup_count := 1, first_seen_at := now1, last_seen_at := now1 }] := by
    rw [h1, ht2, List.filter_append, hnone]
    simp
  obtain ⟨hlen, hrow⟩ := upsertMissingTermRows_existing
    (record_lookup s b1 now1).1.missingTerms b2 now2 _ hfil
  rw [← missingTerms_of_found_false _ b2 now2 hv2 hf2] at hlen hrow
  rw [ht2] at hrow
  refine ⟨h1, hlen, ?_⟩
  rw [hrow]
  norm_num

theorem record_lookup_missing_term_twice_witness :
    (record_lookup Store.empty sampleMissing 5).1.missingTerms.rows =
        Store.empty.missingTerms.rows ++
          [{ id := Store.empty.missingTerms.nextId, client_id := sampleMissing.client_id,
             missing_text := .str "zzz", page_url := sampleMissing.page_url.stored,
             page_context := sampleMissing.page_context.stored, lookup_count := 1,
             first_seen_at := 5, last_seen_at := 5 }] ∧
      (record_lookup (record_lookup Store.empty sampleMissing 5).1 sampleMissing 9).1.missingTerms.rows.length =
        (record_lookup Store.empty sampleMissing 5).1.missingTerms.rows.length ∧
      (record_lookup (record_lookup Store.empty sampleMissing 5).1 sampleMissing 9).1.missingTerms.rows.filter
          (fun m => m.missing_text = .str "zzz") =
        [{ id := Store.empty.missingTerms.nextId, client_id := sampleMissing.client_id,
           missing_text := .str "zzz", page_url := sampleMissing.page_url.stored,
           page_context := sampleMissing.page_context.stored, lookup_count := 2,
           first_seen_at := 5, last_seen_at := 9 }] :=
  record_lookup_missing_term_twice Store.empty (.str "zzz") sampleMissing sampleMissing 5 9
    (by decide) (by decide) (by decide) (by decide) (by decide) (by decide) (by decide)

/-! ## The `found` flag of a lookup -/

theorem map_ne_self_of_mem {α : Type} (f : α → α) (l : List α) (x : α) (hx : x ∈ l)
    (hfx : f x ≠ x) : l.map f ≠ l := by
  intro h
  induction l with
  | nil => simp at hx
  | cons a l ih =>
    rw [List.map_cons, List.cons.injEq] at h
    rcases List.mem_cons.mp hx with rfl | hm
    · exact hfx h.1
    · exact ih hm h.2

theorem upsertMissingTermRows_cases (t : Table MissingTerm) (b : LookupBody) (now : Nat) :
    (upsertMissingTermRows t b now).rows ≠ t.rows ∧
      (((∀ m ∈ t.rows, m.missing_text ≠ b.term_key) ∧
          (upsertMissingTermRows t b now).rows = t.rows ++
            [{ id := t.nextId, client_id := b.client_id.stored,
               missing_text := b.term_key.stored, page_url := b.page_url.stored,
               page_context := b.page_context.stored, lookup_count := 1,
               first_seen_at := now, last_seen_at := now }]) ∨
        ∃ m ∈ t.rows, m.missing_text = b.term_key ∧
          (upsertMissingTermRows t b now).rows = t.rows.map (fun r =>
            if r.id = m.id then
              { r with lookup_count := m.lookup_count + 1, last_seen_at := now }
            else r)) := by
  cases hf : t.rows.find? (fun m => m.missing_text = b.term_key) with
  | none =>
    simp only [upsertMissingTermRows, hf, Table.create]
    rw [List.find?_eq_none] at hf
    refine ⟨?_, Or.inl ⟨?_, trivial⟩⟩
    · intro h
      have := congrArg List.length h
      simp at this
    · intro m hm
      simpa using hf m hm
  | some v =>
    simp only [upsertMissingTermRows, hf]
    have hv : v ∈ t.rows := List.mem_of_find?_eq_some hf
    refine ⟨?_, Or.inr ⟨v, hv, by simpa using List.find?_some hf, rfl⟩⟩
    apply map_ne_self_of_mem _ _ v hv
    intro h
    have := congrArg MissingTerm.lookup_count h
    simp at this

/-- A lookup answered 200 passed the required-field check, inserted its TermLookup row and
ran the MissingTerm statements exactly when `found === false`. -/
theorem record_lookup_status_200 (s : Store) (b : LookupBody) (now : Nat)
    (h : (record_lookup s b now).2.status = 200) :
    b.valid ∧
      (record_lookup s b now).1.termLookups =
        s.termLookups.create (fun _ => lookupRow s.termLookups.nextId b now) ∧
      (record_lookup s b now).1.missingTerms =
        (if b.found.isFalse then upsertMissingTermRows s.missingTerms b now
          else s.missingTerms) := by
  by_cases hv : b.valid
  · refine ⟨hv, ?_⟩
    obtain ⟨h1, h2⟩ := hv
    unfold record_lookup at h ⊢
    simp only [h1, h2, Bool.not_true, Bool.or_self, Bool.false_eq_true, if_false] at h ⊢
    cases hu : upsertUser s.users b.client_id now with
    | none => rw [hu] at h; simp [lookupFailed] at h
    | some r =>
      obtain ⟨users, user⟩ := r
      rw [hu] at h
      simp only at h ⊢
      by_cases hfit : lookupRowFits b = true
      · simp only [hfit, Bool.not_true, Bool.false_eq_true, if_false] at h ⊢
        by_cases hf : b.found.isFalse = true
        · simp only [hf, if_true] at h ⊢
          cases hm : upsertMissingTerm s.missingTerms b now with
          | none => rw [hm] at h; simp [lookupFailed] at h
          | some m =>
            have := upsertMissingTerm_eq_some _ _ _ _ hm
            simp [this]
        · simp [hf]
      · simp [hfit, lookupFailed] at h
  · rw [record_lookup_invalid s b now hv] at h
    simp at h

/-- C13 (as stated, refuted): a lookup with `client_id = 7` passes the required-field
check, is answered 500 and inserts no TermLookup row; a lookup with a `term_key` of 256
letters is answered 500, creates the User row and inserts no TermLookup row. -/
theorem record_lookup_refused_counterexample :
    ({ sampleLookup with client_id := .num 7 } : LookupBody).valid ∧
      (record_lookup Store.empty { sampleLookup with client_id := .num 7 } 5).2.status = 500 ∧
      (record_lookup Store.empty { sampleLookup with client_id := .num 7 } 5).1.termLookups.rows =
        [] ∧
      ({ sampleLookup with term_key := .str longText } : LookupBody).valid ∧
      (record_lookup Store.empty { sampleLookup with term_key := .str longText } 5).2.status =
        500 ∧
      (record_lookup Store.empty
        { sampleLookup with term_key := .str longText } 5).1.termLookups.rows = [] ∧
      (record_lookup Store.empty
        { sampleLookup with term_key := .str longText } 5).1.users.rows.length = 1 := by
  decide!

/-- C13 (amended): a lookup whose fields are in range (`client_id` and `term_key`
non-empty strings of at most 255 characters, the other fields fitting their columns) is
answered 200. A lookup answered 200 passed the required-field check and appended exactly
one TermLookup row; its `found` is `false` exactly when the request's `found` is the
boolean `false` (so an absent value, `null`, `0`, the empty string and the string `false`
all store `true`); and the MissingTerm table changed exactly when the request's `found`
is the boolean `false`, in which case a row with `lookup_count = 1` was appended or the
row found for the term had its counter incremented and its `last_seen_at` refreshed. -/
theorem record_lookup_found_flag (s : Store) (b : LookupBody) (now : Nat) :
    (b.inRange → (record_lookup s b now).2.status = 200) ∧
      ((record_lookup s b now).2.status = 200 →
        b.valid ∧
        (∃ row : TermLookup,
          (record_lookup s b now).1.termLookups.rows = s.termLookups.rows ++ [row] ∧
          (row.found = false ↔ b.found = .bool false) ∧
          (b.found = .undefined ∨ b.found = .null ∨ b.found = .num 0 ∨ b.found = .str "" ∨
              b.found = .str "false" → row.found = true)) ∧
        ((record_lookup s b now).1.missingTerms ≠ s.missingTerms ↔ b.found = .bool false) ∧
        (b.found = .bool false →
          ((∀ m ∈ s.missingTerms.rows, m.missing_text ≠ b.term_key) ∧
            (record_lookup s b now).1.missingTerms.rows = s.missingTerms.rows ++
              [{ id := s.missingTerms.nextId, client_id := b.client_id.stored,
                 missing_text := b.term_key.stored, page_url := b.page_url.stored,
                 page_context := b.page_context.stored, lookup_count := 1,
                 first_seen_at := now, last_seen_at := now }]) ∨
          ∃ m ∈ s.missingTerms.rows, m.missing_text = b.term_key ∧
            (record_lookup s b now).1.missingTerms.rows = s.missingTerms.rows.map (fun r =>
              if r.id = m.id then
                { r with lookup_count := m.lookup_count + 1, last_seen_at := now }
              else r))) := by
  have hiff : b.found.isFalse = true ↔ b.found = .bool false := by
    simp [JSVal.isFalse]
  constructor
  · intro hr
    rw [record_lookup_inRange s b now hr]
  · intro h200
    obtain ⟨hv, hl, hm⟩ := record_lookup_status_200 s b now h200
    refine ⟨hv, ?_, ?_, ?_⟩
    · refine ⟨lookupRow s.termLookups.nextId b now, by rw [hl]; rfl, ?_, ?_⟩
      · simp [lookupRow, hiff]
      · intro h
        have hnf : b.found.isFalse = false := by
          rcases h with h | h | h | h | h <;> rw [h] <;> decide
        simp [lookupRow, hnf]
    · rw [hm]
      by_cases hf : b.found = .bool false
      · have hf' := hiff.mpr hf
        simp only [hf', if_true]
        refine ⟨fun _ => hf, fun _ h => ?_⟩
        exact (upsertMissingTermRows_cases s.missingTerms b now).1 (congrArg Table.rows h)
      · have hnf : b.found.isFalse = false := by
          cases h : b.found.isFalse
          · rfl
          · exact absurd (hiff.mp h) hf
        simp [hnf, hf]
    · intro hf
      rw [hm]
      simp only [hiff.mpr hf, if_true]
      exact (upsertMissingTermRows_cases s.missingTerms b now).2

theorem record_lookup_found_flag_witness :
    (record_lookup Store.empty { sampleLookup with found := .str "false" } 5).2.status = 200 ∧
      (∃ row : TermLookup,
        (record_lookup Store.empty { sampleLookup with found := .str "false" } 5).1.termLookups.rows =
          Store.empty.termLookups.rows ++ [row] ∧
        (row.found = false ↔
          ({ sampleLookup with found := .str "false" } : LookupBody).found = .bool false) ∧
        (({ sampleLookup with found := .str "false" } : LookupBody).found = .undefined ∨
            ({ sampleLookup with found := .str "false" } : LookupBody).found = .null ∨
            ({ sampleLookup with found := .str "false" } : LookupBody).found = .num 0 ∨
            ({ sampleLookup with found := .str "false" } : LookupBody).found = .str "" ∨
            ({ sampleLookup with found := .str "false" } : LookupBody).found = .str "false" →
          row.found = true)) ∧
      ((record_lookup Store.empty sampleMissing 5).1.missingTerms ≠ Store.empty.missingTerms ↔
        sampleMissing.found = .bool false) :=
  ⟨(record_lookup_found_flag Store.empty { sampleLookup with found := .str "false" } 5).1
      (by decide),
    ((record_lookup_found_flag Store.empty { sampleLookup with found := .str "false" } 5).2
      ((record_lookup_found_flag Store.empty { sampleLookup with found := .str "false" } 5).1
        (by decide))).2.1,
    ((record_lookup_found_flag Store.empty sampleMissing 5).2
      ((record_lookup_found_flag Store.empty sampleMissing 5).1 (by decide))).2.2.1⟩

/-! ## User stats -/

/-- C9: for every store and every `client_id` with no User row, `get_user_stats` answers
200 with `success = true` and data `total_lookups = 0`, `unique_terms = 0`,
`days_active = 0`, whatever TermLookup rows the store holds. -/
theorem get_user_stats_unknown_client (s : Store) (client_id : String) (now : Nat)
    (h : s.users.rows.filter (fun u => u.client_id = JSVal.str client_id) = []) :
    get_user_stats s client_id now = ⟨200, true, .stats 0 0 0 none none⟩ := by
  have hnone : s.users.rows.find? (fun u => u.client_id = JSVal.str client_id) = none := by
    rw [List.find?_eq_none]
    intro u hu
    rw [List.filter_eq_nil_iff] at h
    exact h u hu
  simp [get_user_stats, hnone]

theorem get_user_stats_unknown_client_witness :
    orphanStore.termLookups.rows.filter (fun l => l.client_id = JSVal.str "c1") ≠ [] ∧
      get_user_stats orphanStore "c1" 100 = ⟨200, true, .stats 0 0 0 none none⟩ :=
  ⟨by decide, get_user_stats_unknown_client orphanStore "c1" 100 (by decide)⟩

/-! ## User distribution -/

theorem sum_countP_dedup {α β : Type} [DecidableEq β] (f : α → β) (l : List α) :
    (((l.map f).dedup).map (fun k => l.countP (fun a => f a = k))).sum = l.length := by
  have h := List.sum_map_count_dedup_eq_length (l.map f)
  rw [List.length_map] at h
  rw [← h]
  congr 1
  apply List.map_congr_left
  intro k _
  rw [List.count, List.countP_map]
  congr 1

/-- C4: the `CASE` labels partition `total_lookups` (0..5, 6..10, 11..20, 21..50, 51 and
more), every user has its label in exactly one returned row, and the `user_count` values
of the returned rows sum to the number of users. -/
theorem userDistribution_partition (users : List User) :
    (∀ n : Int, (0 ≤ n ∧ n ≤ 5 → bucket n = "1-5") ∧ (6 ≤ n ∧ n ≤ 10 → bucket n = "6-10") ∧
        (11 ≤ n ∧ n ≤ 20 → bucket n = "11-20") ∧ (21 ≤ n ∧ n ≤ 50 → bucket n = "21-50") ∧
        (51 ≤ n → bucket n = "50+")) ∧
      (∀ u ∈ users, ((userDistribution users).filter
          (fun r => r.bucket = bucket u.total_lookups)).length = 1) ∧
      ((userDistribution users).map (fun r => r.user_count)).sum = users.length := by
  refine ⟨?_, ?_, ?_⟩
  · intro n
    refine ⟨?_, ?_, ?_, ?_, ?_⟩
    · rintro ⟨_, h⟩
      simp [bucket, h]
    · rintro ⟨h1, h2⟩
      have : ¬ n ≤ 5 := by omega
      simp [bucket, this, h2]
    · rintro ⟨h1, h2⟩
      have : ¬ n ≤ 5 := by omega
      have : ¬ n ≤ 10 := by omega
      simp [bucket, *]
    · rintro ⟨h1, h2⟩
      have : ¬ n ≤ 5 := by omega
      have : ¬ n ≤ 10 := by omega
      have : ¬ n ≤ 20 := by omega
      simp [bucket, *]
    · intro h1
      have : ¬ n ≤ 5 := by omega
      have : ¬ n ≤ 10 := by omega
      have : ¬ n ≤ 20 := by omega
      have : ¬ n ≤ 50 := by omega
      simp [bucket, *]
  · intro u hu
    have hmem : bucket u.total_lookups ∈ (users.map (fun u => bucket u.total_lookups)).dedup :=
      List.mem_dedup.mpr (List.mem_map.mpr ⟨u, hu, rfl⟩)
    have hcount : ((users.map (fun u => bucket u.total_lookups)).dedup).count
        (bucket u.total_lookups) = 1 :=
      List.count_eq_one_of_mem (List.nodup_dedup _) hmem
    rw [← hcount, userDistribution, List.count, List.countP_eq_length_filter,
      List.filter_map, List.length_map]
    congr 1
  · rw [userDistribution, List.map_map]
    exact sum_countP_dedup (fun u : User => bucket u.total_lookups) users

theorem userDistribution_partition_witness :
    ((userDistribution sampleUsers).filter (fun r => r.bucket = bucket 7)).length = 1 ∧
      ((userDistribution sampleUsers).map (fun r => r.user_count)).sum = 5 :=
  ⟨(userDistribution_partition sampleUsers).2.1 ⟨2, .str "b", 0, 0, 7⟩ (by decide),
    (userDistribution_partition sampleUsers).2.2⟩

/-! ## Popular terms -/

theorem mem_popularTerms {rows : List TermLookup} {e : PopularTerm}
    (h : e ∈ popularTerms rows) :
    ∃ l ∈ rows, l.found = true ∧ l.term_key = e.term_key ∧ l.term_display = e.term_display ∧
      e.lookup_count = ((rows.filter (fun l => l.found)).filter
        (fun l' => termGroup l' = termGroup l)).length ∧
      e.unique_users = ((((rows.filter (fun l => l.found)).filter
        (fun l' => termGroup l' = termGroup l)).map (fun l => l.client_id)).dedup).length := by
  unfold popularTerms at h
  have h1 := List.mem_of_mem_take h
  rw [(List.perm_insertionSort _ _).mem_iff, List.mem_map] at h1
  obtain ⟨k, hk, rfl⟩ := h1
  rw [List.mem_dedup, List.mem_map] at hk
  obtain ⟨l, hl, rfl⟩ := hk
  rw [List.mem_filter] at hl
  exact ⟨l, hl.1, hl.2, rfl, rfl, rfl, rfl⟩

theorem filter_found_group (rows : List TermLookup) (l : TermLookup) :
    (rows.filter (fun l => l.found)).filter (fun l' => termGroup l' = termGroup l) =
      rows.filter (fun l' => l'.found = true ∧ l'.term_key = l.term_key ∧
        l'.term_display = l.term_display) := by
  rw [List.filter_filter]
  apply List.filter_congr
  intro x _
  cases hx : x.found <;> simp [termGroup, Prod.ext_iff]

/-- C10: every entry of `popular_terms` has `lookup_count` equal to the number of rows
with its `(term_key, term_display)` and `found = true` (at least one), and `unique_users`
equal to the number of distinct `client_id` among those rows; rows with `found = false`
do not change the result, and a term whose lookups all have `found = false` has no
entry. -/
theorem popularTerms_counts_found_only (rows : List TermLookup) :
    (∀ e ∈ popularTerms rows,
        e.lookup_count = (rows.filter (fun l => l.found = true ∧ l.term_key = e.term_key ∧
          l.term_display = e.term_display)).length ∧
        e.unique_users = (((rows.filter (fun l => l.found = true ∧ l.term_key = e.term_key ∧
          l.term_display = e.term_display)).map (fun l => l.client_id)).dedup).length ∧
        0 < e.lookup_count) ∧
      popularTerms rows = popularTerms (rows.filter (fun l => l.found)) ∧
      (∀ t : JSVal, (∀ l ∈ rows, l.term_key = t → l.found = false) →
        ∀ e ∈ popularTerms rows, e.term_key ≠ t) := by
  refine ⟨?_, ?_, ?_⟩
  · intro e he
    obtain ⟨l, hl, hf, hk, hd, hc, hu⟩ := mem_popularTerms he
    rw [filter_found_group] at hc hu
    rw [hk, hd] at hc hu
    refine ⟨hc, hu, ?_⟩
    rw [hc, List.length_pos_iff_exists_mem]
    exact ⟨l, List.mem_filter.mpr ⟨hl, by simp [hf, hk, hd]⟩⟩
  · simp [popularTerms, List.filter_filter]
  · intro t ht e he hte
    obtain ⟨l, hl, hf, hk, _⟩ := mem_popularTerms he
    have := ht l hl (hk.trans hte)
    rw [hf] at this
    exact Bool.noConfusion this

theorem popularTerms_counts_found_only_witness :
    popularTerms sampleRows = [⟨.str "apr", .str "apr", 3, 2⟩] ∧
      (∀ e ∈ popularTerms sampleRows, e.term_key ≠ .str "zzz") :=
  ⟨by decide, (popularTerms_counts_found_only sampleRows).2.2 (.str "zzz") (by decide)⟩

/-! ## Daily analytics: the `days` parameter -/

theorem timeClip_of_le (t : Int) (h : t.natAbs ≤ maxTime.natAbs) : timeClip t = some t := by
  simp [timeClip, h]

theorem timeClip_eq_some (t u : Int) (h : timeClip t = some u) : t = u := by
  unfold timeClip at h
  split at h
  · exact Option.some.inj h
  · exact Option.noConfusion h

/-- C11: the 30-day default is used only when `days` is absent. For a supplied value that
`parseInt` reads as the integer `n`, the start date is the current date minus `n` days
(when that is a valid date); for one it does not read (`NaN`) the start date is an
Invalid Date; the start date is 30 days back only when the supplied value parses to 30.
`abc` and the empty string are not read, `7abc` is read as 7, `030` as 30. -/
theorem daily_start_date (now : Int) (h0 : 0 ≤ now) (h1 : now ≤ maxTime) :
    dailyStartDate none now = some (now - 30 * msPerDay) ∧
      (∀ (v : String) (n : Int), parseInt v = some n →
        (now - n * msPerDay).natAbs ≤ maxTime.natAbs →
        dailyStartDate (some v) now = some (now - n * msPerDay)) ∧
      (∀ v : String, parseInt v = none → dailyStartDate (some v) now = none) ∧
      (∀ v : String, dailyStartDate (some v) now = some (now - 30 * msPerDay) →
        parseInt v = some 30) ∧
      parseInt "abc" = none ∧ parseInt "" = none ∧ parseInt "7abc" = some 7 ∧
      parseInt "030" = some 30 := by
  have h30 : parseInt (toString (30 : Nat)) = some 30 := by decide
  have hclip : timeClip (now - 30 * msPerDay) = some (now - 30 * msPerDay) := by
    apply timeClip_of_le
    simp only [maxTime, msPerDay] at *
    omega
  have hnone : dailyStartDate none now = some (now - 30 * msPerDay) := by
    simp only [dailyStartDate, h30, hclip]
  refine ⟨hnone, ?_, ?_, ?_, by decide, by decide, by decide, by decide⟩
  · intro v n hv hr
    simp only [dailyStartDate, hv, timeClip_of_le _ hr]
  · intro v hv
    simp only [dailyStartDate, hv]
  · intro v hv
    simp only [dailyStartDate] at hv
    cases hp : parseInt v with
    | none => rw [hp] at hv; exact Option.noConfusion hv
    | some n =>
      rw [hp] at hv
      have := timeClip_eq_some _ _ hv
      have hn : n = 30 := by
        simp only [msPerDay] at this
        omega
      rw [hn]

theorem daily_start_date_witness :
    dailyStartDate none 1762300800000 = some (1762300800000 - 30 * msPerDay) ∧
      dailyStartDate (some "7abc") 1762300800000 = some (1762300800000 - 7 * msPerDay) ∧
      dailyStartDate (some "abc") 1762300800000 = none :=
  ⟨(daily_start_date 1762300800000 (by decide) (by decide)).1,
    (daily_start_date 1762300800000 (by decide) (by decide)).2.1 "7abc" 7 (by decide)
      (by decide),
    (daily_start_date 1762300800000 (by decide) (by decide)).2.2.1 "abc" (by decide)⟩

/-! ## Required fields of the rewrite route -/

/-- C7: a rewrite request whose `client_id`, `term_key` or `original_explanation` is
`undefined`, `null` or empty is answered 400 with `success = false`, sends nothing to the
language-model API and leaves the AIRewrite table unchanged. -/
theorem rewrite_required_fields (t : Table AIRewrite) (b : RewriteBody)
    (openai : String → UpstreamResult)
    (h : b.client_id.missing ∨ b.term_key.missing ∨ b.original_explanation.missing) :
    (rewrite t b openai).response.status = 400 ∧
      (rewrite t b openai).response.success = false ∧
      (rewrite t b openai).calls = [] ∧
      (rewrite t b openai).table = t := by
  have hcond : (!b.client_id.truthy || !b.term_key.truthy ||
      !b.original_explanation.truthy) = true := by
    rcases h with h | h | h <;> simp [JSVal.truthy_of_missing _ h]
  simp [rewrite, hcond]

theorem rewrite_required_fields_witness :
    (rewrite sampleRewrites (sampleRewrite (.str "")) (sampleOpenai 100 50)).response.status =
        400 ∧
      (rewrite sampleRewrites (sampleRewrite (.str "")) (sampleOpenai 100 50)).response.success =
        false ∧
      (rewrite sampleRewrites (sampleRewrite (.str "")) (sampleOpenai 100 50)).calls = [] ∧
      (rewrite sampleRewrites (sampleRewrite (.str "")) (sampleOpenai 100 50)).table =
        sampleRewrites :=
  rewrite_required_fields sampleRewrites (sampleRewrite (.str "")) (sampleOpenai 100 50)
    (Or.inr (Or.inr (by decide)))

/-! ## Rounding error of the number model -/

namespace F64

theorem log2Fuel_spec : ∀ (fuel n : ℕ), 1 ≤ n → n ≤ fuel →
    2 ^ log2Fuel fuel n ≤ n ∧ n < 2 ^ (log2Fuel fuel n + 1) := by
  intro fuel
  induction fuel with
  | zero => intro n h1 h2; omega
  | succ fuel ih =>
    intro n h1 h2
    unfold log2Fuel
    by_cases hn : n < 2
    · simp only [hn, if_true]
      constructor <;> simp <;> omega
    · simp only [hn, if_false]
      obtain ⟨ih1, ih2⟩ := ih (n / 2) (by omega) (by omega)
      constructor
      · rw [pow_succ]; omega
      · rw [pow_succ]; omega

theorem ilog2_spec (n : ℕ) (h : 1 ≤ n) : 2 ^ ilog2 n ≤ n ∧ n < 2 ^ (ilog2 n + 1) :=
  log2Fuel_spec n n h le_rfl

theorem abs_eq_natAbs_div_den (q : ℚ) : |q| = (q.num.natAbs : ℚ) / (q.den : ℚ) := by
  conv_lhs => rw [← Rat.num_div_den q]
  rw [abs_div, Nat.cast_natAbs, Int.cast_abs]
  congr 1
  exact abs_of_pos (by exact_mod_cast q.pos)

theorem expo_spec (q : ℚ) (hq : q ≠ 0) :
    (2 : ℚ) ^ expo q ≤ |q| ∧ |q| < (2 : ℚ) ^ (expo q + 1) := by
  have ha : 1 ≤ q.num.natAbs := by
    have : q.num ≠ 0 := Rat.num_ne_zero.mpr hq
    omega
  have hb : 1 ≤ q.den := q.pos
  obtain ⟨ha1, ha2⟩ := ilog2_spec _ ha
  obtain ⟨hb1, hb2⟩ := ilog2_spec _ hb
  have hbpos : (0 : ℚ) < q.den := by exact_mod_cast q.pos
  have ha1' : (2 : ℚ) ^ ilog2 q.num.natAbs ≤ q.num.natAbs := by exact_mod_cast ha1
  have ha2' : (q.num.natAbs : ℚ) < (2 : ℚ) ^ (ilog2 q.num.natAbs + 1) := by exact_mod_cast ha2
  have hb1' : (2 : ℚ) ^ ilog2 q.den ≤ q.den := by exact_mod_cast hb1
  have hb2' : (q.den : ℚ) < (2 : ℚ) ^ (ilog2 q.den + 1) := by exact_mod_cast hb2
  have habs := abs_eq_natAbs_div_den q
  have hpa : (0 : ℚ) < 2 ^ ilog2 q.num.natAbs := by positivity
  have hpb : (0 : ℚ) < 2 ^ ilog2 q.den := by positivity
  have e1 : (2 : ℚ) ^ ((ilog2 q.num.natAbs : ℤ) - (ilog2 q.den : ℤ) + 1) =
      2 ^ (ilog2 q.num.natAbs + 1) / 2 ^ ilog2 q.den := by
    rw [show ((ilog2 q.num.natAbs : ℤ) - (ilog2 q.den : ℤ) + 1) =
      ((ilog2 q.num.natAbs + 1 : ℕ) : ℤ) - (ilog2 q.den : ℕ) by push_cast; ring]
    rw [zpow_sub₀ (by norm_num), zpow_natCast, zpow_natCast]
  have e2 : (2 : ℚ) ^ ((ilog2 q.num.natAbs : ℤ) - (ilog2 q.den : ℤ) - 1) =
      2 ^ ilog2 q.num.natAbs / 2 ^ (ilog2 q.den + 1) := by
    rw [show ((ilog2 q.num.natAbs : ℤ) - (ilog2 q.den : ℤ) - 1) =
      ((ilog2 q.num.natAbs : ℕ) : ℤ) - (ilog2 q.den + 1 : ℕ) by push_cast; ring]
    rw [zpow_sub₀ (by norm_num), zpow_natCast, zpow_natCast]
  have hup : |q| < (2 : ℚ) ^ ((ilog2 q.num.natAbs : ℤ) - (ilog2 q.den : ℤ) + 1) := by
    rw [e1, habs, div_lt_div_iff₀ hbpos hpb]
    calc (q.num.natAbs : ℚ) * 2 ^ ilog2 q.den
        ≤ q.num.natAbs * q.den := by
          apply mul_le_mul_of_nonneg_left hb1' (by positivity)
      _ < 2 ^ (ilog2 q.num.natAbs + 1) * q.den := by
          apply mul_lt_mul_of_pos_right ha2' hbpos
  have hlo : (2 : ℚ) ^ ((ilog2 q.num.natAbs : ℤ) - (ilog2 q.den : ℤ) - 1) ≤ |q| := by
    rw [e2, habs, div_le_div_iff₀ (by positivity) hbpos]
    calc (2 : ℚ) ^ ilog2 q.num.natAbs * q.den
        ≤ q.num.natAbs * q.den := by
          apply mul_le_mul_of_nonneg_right ha1' hbpos.le
      _ ≤ q.num.natAbs * 2 ^ (ilog2 q.den + 1) := by
          apply mul_le_mul_of_nonneg_left hb2'.le (by positivity)
  unfold expo
  simp only
  split
  · next h => exact ⟨h, hup⟩
  · next h =>
    refine ⟨hlo, ?_⟩
    rw [sub_add_cancel]
    exact lt_of_not_le h

theorem roundHalfEven_err (m : ℚ) : |(roundHalfEven m : ℚ) - m| ≤ 1 / 2 := by
  have h1 := Int.floor_le m
  have h2 := Int.lt_floor_add_one m
  unfold roundHalfEven
  simp only
  rw [abs_le]
  split
  · constructor <;> linarith
  · split
    · push_cast; constructor <;> linarith
    · split
      · constructor <;> linarith
      · push_cast; constructor <;> linarith

theorem roundHalfEven_intCast (k : ℤ) : roundHalfEven (k : ℚ) = k := by
  unfold roundHalfEven
  simp

theorem ulp_pos (q : ℚ) : 0 < ulp q := by
  unfold ulp
  positivity

theorem rn_zero : rn 0 = 0 := by
  unfold rn
  rw [zero_div]
  have := roundHalfEven_intCast 0
  simp only [Int.cast_zero] at this
  rw [this]
  simp

theorem rn_rel (q : ℚ) (h : q = 0 ∨ (2 : ℚ) ^ (-1022 : ℤ) ≤ |q|) :
    |rn q - q| ≤ |q| / 2 ^ 53 := by
  rcases h with rfl | h
  · simp [rn_zero]
  · have hq : q ≠ 0 := by
      rintro rfl
      rw [abs_zero] at h
      exact absurd h (not_le.mpr (by positivity))
    obtain ⟨h1, h2⟩ := expo_spec q hq
    have he : (-1022 : ℤ) ≤ expo q := by
      have h3 : (2 : ℚ) ^ (-1022 : ℤ) < (2 : ℚ) ^ (expo q + 1) := lt_of_le_of_lt h h2
      have := (zpow_lt_zpow_iff_right₀ (by norm_num : (1 : ℚ) < 2)).mp h3
      omega
    have hu : ulp q = (2 : ℚ) ^ (expo q - 52) := by
      unfold ulp
      rw [max_eq_left he]
    have hpos := ulp_pos q
    have herr := roundHalfEven_err (q / ulp q)
    have hsplit : rn q - q = ((roundHalfEven (q / ulp q) : ℚ) - q / ulp q) * ulp q := by
      unfold rn
      field_simp
    rw [hsplit, abs_mul, abs_of_pos hpos]
    have hhalf : ulp q / 2 ≤ |q| / 2 ^ 53 := by
      rw [hu, show expo q - 52 = expo q + (-52 : ℤ) by ring, zpow_add₀ (by norm_num)]
      have : (2 : ℚ) ^ (-52 : ℤ) = 2 / 2 ^ 53 := by norm_num
      rw [this]
      have : (2 : ℚ) ^ expo q * (2 / 2 ^ 53) / 2 = (2 : ℚ) ^ expo q / 2 ^ 53 := by ring
      rw [this]
      exact div_le_div_of_nonneg_right h1 (by positivity)
    calc |(roundHalfEven (q / ulp q) : ℚ) - q / ulp q| * ulp q
        ≤ 1 / 2 * ulp q := mul_le_mul_of_nonneg_right herr hpos.le
      _ = ulp q / 2 := by ring
      _ ≤ |q| / 2 ^ 53 := hhalf

theorem rn_natCast (n : ℕ) (h : n < 2 ^ 53) : rn (n : ℚ) = n := by
  rcases Nat.eq_zero_or_pos n with rfl | hn
  · simpa using rn_zero
  · have hq : (n : ℚ) ≠ 0 := by exact_mod_cast hn.ne'
    obtain ⟨h1, h2⟩ := expo_spec (n : ℚ) hq
    rw [abs_of_nonneg (by positivity)] at h1 h2
    have he0 : (0 : ℤ) ≤ expo (n : ℚ) := by
      have h3 : (2 : ℚ) ^ (0 : ℤ) < (2 : ℚ) ^ (expo (n : ℚ) + 1) := by
        rw [zpow_zero]
        exact lt_of_le_of_lt (by exact_mod_cast hn) h2
      have := (zpow_lt_zpow_iff_right₀ (by norm_num : (1 : ℚ) < 2)).mp h3
      omega
    have he52 : expo (n : ℚ) ≤ 52 := by
      have h3 : (2 : ℚ) ^ expo (n : ℚ) < (2 : ℚ) ^ (53 : ℤ) := by
        refine lt_of_le_of_lt h1 ?_
        rw [show (53 : ℤ) = ((53 : ℕ) : ℤ) by rfl, zpow_natCast]
        exact_mod_cast h
      have := (zpow_lt_zpow_iff_right₀ (by norm_num : (1 : ℚ) < 2)).mp h3
      omega
    have hu : ulp (n : ℚ) = (2 : ℚ) ^ (expo (n : ℚ) - 52) := by
      unfold ulp
      rw [max_eq_left (by omega)]
    obtain ⟨k, hk⟩ : ∃ k : ℕ, (52 : ℤ) - expo (n : ℚ) = k := ⟨(52 - expo (n : ℚ)).toNat, by omega⟩
    have hinv : (1 : ℚ) / ulp (n : ℚ) = 2 ^ k := by
      rw [hu, one_div, ← zpow_neg, neg_sub, hk, zpow_natCast]
    have hdiv : (n : ℚ) / ulp (n : ℚ) = ((n * 2 ^ k : ℕ) : ℤ) := by
      rw [div_eq_mul_one_div, hinv]
      push_cast
      ring
    unfold rn
    rw [hdiv, roundHalfEven_intCast, ← hdiv]
    have := ulp_pos (n : ℚ)
    field_simp

end F64

/-! ## Propagation of rounding errors -/

namespace F64

theorem eps_pos : 0 < eps := by unfold eps; positivity

theorem eps_lt_one : eps < 1 := by unfold eps; norm_num

theorem within_refl (E : ℚ) : Within 0 E E := by
  simp [Within]

theorem within_nonneg {k : ℕ} {x E : ℚ} (h : Within k x E) (hE : 0 ≤ E) : 0 ≤ x :=
  le_trans (mul_nonneg hE (pow_nonneg (sub_nonneg.mpr eps_lt_one.le) k)) h.1

theorem within_mul_const {k : ℕ} {x E : ℚ} (h : Within k x E) (c : ℚ) (hc : 0 ≤ c) :
    Within k (c * x) (c * E) := by
  constructor
  · calc c * E * (1 - eps) ^ k = c * (E * (1 - eps) ^ k) := by ring
      _ ≤ c * x := mul_le_mul_of_nonneg_left h.1 hc
  · calc c * x ≤ c * (E * (1 + eps) ^ k) := mul_le_mul_of_nonneg_left h.2 hc
      _ = c * E * (1 + eps) ^ k := by ring

theorem within_add {k : ℕ} {x y E F : ℚ} (hx : Within k x E) (hy : Within k y F) :
    Within k (x + y) (E + F) := by
  constructor
  · have := add_le_add hx.1 hy.1
    linarith
  · have := add_le_add hx.2 hy.2
    linarith

theorem one_sub_eps_pow_ge (k : ℕ) (hk : k ≤ 8) : (1 : ℚ) / 2 ≤ (1 - eps) ^ k := by
  have h1 : (1 : ℚ) - (k : ℚ) * eps ≤ (1 - eps) ^ k := by
    have := one_add_mul_le_pow (show (-2 : ℚ) ≤ -eps by unfold eps; norm_num) k
    simpa [sub_eq_add_neg] using this
  have h2 : (k : ℚ) * eps ≤ 1 / 2 := by
    have : (k : ℚ) ≤ 8 := by exact_mod_cast hk
    unfold eps
    calc (k : ℚ) * (1 / 2 ^ 53) ≤ 8 * (1 / 2 ^ 53) := by
          apply mul_le_mul_of_nonneg_right this (by positivity)
      _ ≤ 1 / 2 := by norm_num
  linarith

theorem within_rn {k : ℕ} {x E : ℚ} (h : Within k x E) (hk : k ≤ 8)
    (hE : E = 0 ∨ 1 / 2 ^ 40 ≤ E) : Within (k + 1) (rn x) E := by
  rcases hE with rfl | hE
  · have hx : x = 0 := by
      have h1 := h.1
      have h2 := h.2
      simp only [zero_mul] at h1 h2
      exact le_antisymm h2 h1
    subst hx
    rw [rn_zero]
    simp [Within]
  · have hE0 : 0 ≤ E := le_trans (by positivity) hE
    have hx0 : 0 ≤ x := within_nonneg h hE0
    have hlow : (2 : ℚ) ^ (-1022 : ℤ) ≤ |x| := by
      rw [abs_of_nonneg hx0]
      refine le_trans ?_ h.1
      have hp := one_sub_eps_pow_ge k hk
      calc (2 : ℚ) ^ (-1022 : ℤ) ≤ 1 / 2 ^ 40 * (1 / 2) := by
            rw [show (1 : ℚ) / 2 ^ 40 * (1 / 2) = (2 : ℚ) ^ (-41 : ℤ) by norm_num]
            exact zpow_le_zpow_right₀ (by norm_num) (by norm_num)
        _ ≤ E * (1 - eps) ^ k := mul_le_mul hE hp (by norm_num) hE0
    have hr := rn_rel x (Or.inr hlow)
    rw [abs_of_nonneg hx0, abs_le] at hr
    have he : x / 2 ^ 53 = x * eps := by unfold eps; ring
    rw [he] at hr
    have h1e : 0 ≤ 1 - eps := sub_nonneg.mpr eps_lt_one.le
    constructor
    · calc E * (1 - eps) ^ (k + 1) = E * (1 - eps) ^ k * (1 - eps) := by ring
        _ ≤ x * (1 - eps) := mul_le_mul_of_nonneg_right h.1 h1e
        _ ≤ rn x := by linarith [hr.1]
    · calc rn x ≤ x * (1 + eps) := by linarith [hr.2]
        _ ≤ E * (1 + eps) ^ k * (1 + eps) :=
          mul_le_mul_of_nonneg_right h.2 (by linarith [eps_pos])
        _ = E * (1 + eps) ^ (k + 1) := by ring

theorem within_abs_sub {k : ℕ} {x E : ℚ} (h : Within k x E) (hk : k ≤ 8) (hE : 0 ≤ E) :
    |x - E| ≤ E * (9 * eps) := by
  have hlo : (1 : ℚ) - (k : ℚ) * eps ≤ (1 - eps) ^ k := by
    have := one_add_mul_le_pow (show (-2 : ℚ) ≤ -eps by unfold eps; norm_num) k
    simpa [sub_eq_add_neg] using this
  have hk' : (k : ℚ) ≤ 8 := by exact_mod_cast hk
  have hup : (1 + eps) ^ k ≤ 1 + 9 * eps := by
    calc (1 + eps) ^ k ≤ (1 + eps) ^ 8 :=
          pow_le_pow_right₀ (by linarith [eps_pos]) hk
      _ ≤ 1 + 9 * eps := by unfold eps; norm_num
  have hke : (k : ℚ) * eps ≤ 9 * eps := by
    apply mul_le_mul_of_nonneg_right (by linarith) eps_pos.le
  rw [abs_le]
  constructor
  · have : E * (1 - 9 * eps) ≤ E * (1 - eps) ^ k :=
      mul_le_mul_of_nonneg_left (by linarith) hE
    linarith [h.1]
  · have : E * (1 + eps) ^ k ≤ E * (1 + 9 * eps) := mul_le_mul_of_nonneg_left hup hE
    linarith [h.2]

theorem toFixedN_bounds (d : ℕ) (x : ℚ) (hx : 0 ≤ x) (N D : ℕ) (hD : 0 < D)
    (herr : |x * 10 ^ d - (N : ℚ) / D| < 1 / (2 * D)) :
    2 * toFixedN d x * D ≤ 2 * N + D ∧ 2 * N ≤ (2 * toFixedN d x + 1) * D := by
  have hD' : (0 : ℚ) < D := by exact_mod_cast hD
  have hy : (0 : ℚ) ≤ x * 10 ^ d + 1 / 2 := by positivity
  have hfl0 : 0 ≤ ⌊x * 10 ^ d + 1 / 2⌋ := Int.floor_nonneg.mpr hy
  have hn : ((toFixedN d x : ℕ) : ℤ) = ⌊x * 10 ^ d + 1 / 2⌋ := by
    unfold toFixedN
    rw [abs_of_nonneg hx]
    exact Int.toNat_of_nonneg hfl0
  have hnq : ((toFixedN d x : ℕ) : ℚ) = (⌊x * 10 ^ d + 1 / 2⌋ : ℚ) := by
    rw [← hn]; simp
  have h1 := Int.floor_le (x * 10 ^ d + 1 / 2)
  have h2 := Int.lt_floor_add_one (x * 10 ^ d + 1 / 2)
  rw [← hnq] at h1 h2
  rw [abs_lt] at herr
  obtain ⟨e1, e2⟩ := herr
  have hND : (N : ℚ) / D * D = N := by field_simp
  have hhalf : (1 : ℚ) / (2 * D) * D = 1 / 2 := by field_simp; ring
  have e1' := mul_lt_mul_of_pos_right e1 hD'
  have e2' := mul_lt_mul_of_pos_right e2 hD'
  have h1' := mul_le_mul_of_nonneg_right h1 hD'.le
  have h2' := mul_lt_mul_of_pos_right h2 hD'
  rw [sub_mul, hND] at e1' e2'
  rw [hhalf] at e2'
  rw [neg_mul, hhalf] at e1'
  constructor
  · have : (2 * (toFixedN d x : ℚ) * D) < 2 * N + D + 1 := by nlinarith
    have : 2 * toFixedN d x * D < 2 * N + D + 1 := by exact_mod_cast this
    omega
  · have : (2 * (N : ℚ)) < (2 * toFixedN d x + 1) * D + 1 := by nlinarith
    have : 2 * N < (2 * toFixedN d x + 1) * D + 1 := by exact_mod_cast this
    omega

theorem within_scaled_err {k : ℕ} {x E : ℚ} (h : Within k x E) (hk : k ≤ 8) (hE : 0 ≤ E)
    (S : ℚ) (hS : 0 ≤ S) : |x * S - E * S| ≤ E * S * (9 * eps) := by
  have := within_abs_sub h hk hE
  rw [← sub_mul, abs_mul, abs_of_nonneg hS]
  calc |x - E| * S ≤ E * (9 * eps) * S := mul_le_mul_of_nonneg_right this hS
    _ = E * S * (9 * eps) := by ring

theorem fixedDigits_two (n : ℕ) :
    ∃ a b : List Char, fixedDigits 2 n = a ++ '.' :: b ∧ b.length = 2 ∧ a ≠ [] := by
  unfold fixedDigits
  simp only [show (2 : ℕ) ≠ 0 by norm_num, if_false]
  generalize (toString n).toList = l
  refine ⟨_, _, rfl, ?_, ?_⟩
  · by_cases h : l.length ≤ 2
    · simp only [h, if_true, List.length_drop, List.length_append, List.length_replicate]
      omega
    · simp only [h, if_false, List.length_drop]
      omega
  · intro h'
    have := congrArg List.length h'
    by_cases h : l.length ≤ 2
    · simp only [h, if_true, List.length_take, List.length_append, List.length_replicate,
        List.length_nil] at this
      omega
    · simp only [h, if_false, List.length_take, List.length_nil] at this
      omega

end F64

/-! ## Rounding errors of `cost_usd` and `retention_rate` -/

open F64 in
theorem price_term_within (n : ℕ) (hn : n < 2 ^ 32) (r : ℚ) (hr : 1 / 2 ^ 20 ≤ r) :
    Within 3 (F64.div (F64.mul (F64.ofNat n) (rn r)) (F64.ofNat 1000)) (n * r / 1000) := by
  have hr0 : (0 : ℚ) < r := lt_of_lt_of_le (by positivity) hr
  have hn' : F64.ofNat n = n := rn_natCast n (lt_of_lt_of_le hn (by norm_num))
  have h1000 : F64.ofNat 1000 = 1000 := by
    have := rn_natCast 1000 (by norm_num)
    simpa [F64.ofNat] using this
  have hA : Within 1 (rn r) r :=
    within_rn (within_refl r) (by norm_num)
      (Or.inr (le_trans (by norm_num) hr))
  have hcase : n = 0 ∨ (1 : ℚ) ≤ n := by
    rcases Nat.eq_zero_or_pos n with h | h
    · exact Or.inl h
    · exact Or.inr (by exact_mod_cast h)
  have h1 : Within 1 ((n : ℚ) * rn r) (n * r) := within_mul_const hA n (by positivity)
  have h2 : Within 2 (rn ((n : ℚ) * rn r)) (n * r) := by
    refine within_rn h1 (by norm_num) ?_
    rcases hcase with h | h
    · left; simp [h]
    · right
      calc (1 : ℚ) / 2 ^ 40 ≤ 1 / 2 ^ 20 := by norm_num
        _ ≤ r := hr
        _ = 1 * r := by ring
        _ ≤ n * r := mul_le_mul_of_nonneg_right h hr0.le
  have h3 : Within 2 (1 / 1000 * rn ((n : ℚ) * rn r)) (1 / 1000 * (n * r)) :=
    within_mul_const h2 _ (by norm_num)
  have h4 : Within 3 (rn (1 / 1000 * rn ((n : ℚ) * rn r))) (1 / 1000 * (n * r)) := by
    refine within_rn h3 (by norm_num) ?_
    rcases hcase with h | h
    · left; simp [h]
    · right
      have : r ≤ n * r := by
        calc r = 1 * r := by ring
          _ ≤ n * r := mul_le_mul_of_nonneg_right h hr0.le
      calc (1 : ℚ) / 2 ^ 40 ≤ 1 / 1000 * (1 / 2 ^ 20) := by norm_num
        _ ≤ 1 / 1000 * (n * r) :=
          mul_le_mul_of_nonneg_left (le_trans hr this) (by norm_num)
  unfold F64.div F64.mul
  rw [hn', h1000]
  have e1 : rn ((n : ℚ) * rn r) / 1000 = 1 / 1000 * rn ((n : ℚ) * rn r) := by ring
  have e2 : (n : ℚ) * r / 1000 = 1 / 1000 * (n * r) := by ring
  rw [e1, e2]
  exact h4

open F64 in
theorem cost_usd_within (p c : ℕ) (hp : p < 2 ^ 32) (hc : c < 2 ^ 32) :
    Within 4 (cost_usd p c) ((3 * p + 4 * c : ℚ) / 2000000) := by
  have h1 := price_term_within p hp (15 / 10000) (by norm_num)
  have h2 := price_term_within c hc (2 / 1000) (by norm_num)
  have hs := within_add h1 h2
  have hE : (p : ℚ) * (15 / 10000) / 1000 + c * (2 / 1000) / 1000 =
      (3 * p + 4 * c : ℚ) / 2000000 := by ring
  rw [hE] at hs
  unfold cost_usd F64.add
  refine within_rn hs (by norm_num) ?_
  rcases Nat.eq_zero_or_pos p with h | h
  · rcases Nat.eq_zero_or_pos c with h' | h'
    · left; simp [h, h']
    · right
      have : (1 : ℚ) ≤ c := by exact_mod_cast h'
      have hp0 : (0 : ℚ) ≤ p := by positivity
      rw [le_div_iff₀ (by norm_num)]
      norm_num
      linarith
  · right
    have : (1 : ℚ) ≤ p := by exact_mod_cast h
    have hc0 : (0 : ℚ) ≤ c := by positivity
    rw [le_div_iff₀ (by norm_num)]
    norm_num
    linarith

open F64 in
theorem cost_usd_toFixedN (p c : ℕ) (hp : p < 2 ^ 32) (hc : c < 2 ^ 32) :
    0 ≤ cost_usd p c ∧ 2 * toFixedN 6 (cost_usd p c) ≤ 3 * p + 4 * c + 1 ∧
      3 * p + 4 * c ≤ 2 * toFixedN 6 (cost_usd p c) + 1 := by
  have hw := cost_usd_within p c hp hc
  have hE : (0 : ℚ) ≤ (3 * p + 4 * c : ℚ) / 2000000 := by positivity
  have hx := within_nonneg hw hE
  have herr := within_scaled_err hw (by norm_num) hE (10 ^ 6) (by norm_num)
  have hp' : (p : ℚ) < 2 ^ 32 := by exact_mod_cast hp
  have hc' : (c : ℚ) < 2 ^ 32 := by exact_mod_cast hc
  have hp0 : (0 : ℚ) ≤ p := by positivity
  have hc0 : (0 : ℚ) ≤ c := by positivity
  have hb := toFixedN_bounds 6 (cost_usd p c) hx (3 * p + 4 * c) 2 (by norm_num) (by
    have e : (3 * p + 4 * c : ℚ) / 2000000 * 10 ^ 6 = ((3 * p + 4 * c : ℕ) : ℚ) / (2 : ℕ) := by
      push_cast; ring
    rw [e] at herr
    refine lt_of_le_of_lt herr ?_
    push_cast
    unfold eps
    norm_num
    linarith)
  refine ⟨hx, ?_, ?_⟩
  · omega
  · omega

open F64 in
theorem retention_within (w m : ℕ) (hw : w < 2 ^ 32) (hm : 0 < m) (hm2 : m < 2 ^ 32) :
    Within 2 (F64.mul (F64.div (F64.ofNat w) (F64.ofNat m)) (F64.ofNat 100))
      (100 * ((w : ℚ) / m)) := by
  have hw' : F64.ofNat w = w := rn_natCast w (lt_of_lt_of_le hw (by norm_num))
  have hm' : F64.ofNat m = m := rn_natCast m (lt_of_lt_of_le hm2 (by norm_num))
  have h100 : F64.ofNat 100 = 100 := by
    have := rn_natCast 100 (by norm_num)
    simpa [F64.ofNat] using this
  have hmq : (0 : ℚ) < m := by exact_mod_cast hm
  have hmq2 : (m : ℚ) < 2 ^ 32 := by exact_mod_cast hm2
  have hcase : (w : ℚ) / m = 0 ∨ (1 : ℚ) / 2 ^ 32 ≤ (w : ℚ) / m := by
    rcases Nat.eq_zero_or_pos w with h | h
    · left; simp [h]
    · right
      have : (1 : ℚ) ≤ w := by exact_mod_cast h
      rw [div_le_div_iff₀ (by positivity) hmq]
      nlinarith
  have h1 : Within 1 (rn ((w : ℚ) / m)) ((w : ℚ) / m) := by
    refine within_rn (within_refl _) (by norm_num) ?_
    rcases hcase with h | h
    · exact Or.inl h
    · exact Or.inr (le_trans (by norm_num) h)
  have h2 : Within 1 (100 * rn ((w : ℚ) / m)) (100 * ((w : ℚ) / m)) :=
    within_mul_const h1 _ (by norm_num)
  have h3 : Within 2 (rn (100 * rn ((w : ℚ) / m))) (100 * ((w : ℚ) / m)) := by
    refine within_rn h2 (by norm_num) ?_
    rcases hcase with h | h
    · left; rw [h]; simp
    · right
      calc (1 : ℚ) / 2 ^ 40 ≤ 100 * (1 / 2 ^ 32) := by norm_num
        _ ≤ 100 * ((w : ℚ) / m) := mul_le_mul_of_nonneg_left h (by norm_num)
  unfold F64.mul F64.div
  rw [hw', hm', h100, mul_comm (rn _) 100]
  exact h3

/-! ## Cost of a rewrite -/

/-- C6 (as stated, refuted): for `prompt_tokens = 1`, `completion_tokens = 1` the exact
cost is 3.5 millionths, which rounds (half up, and half to even) to 0.000004, but the
returned `cost_usd` is the Number 0.000003; for `1` and `0` the exact cost is 1.5
millionths and the returned `cost_usd` is 0.000002, so ties are not rounded down
either. -/
theorem returned_cost_usd_tie_counterexample :
    returned_cost_usd 1 1 = F64.rn (3 / 10 ^ 6) ∧
      F64.rn (3 / 10 ^ 6) ≠ F64.rn (4 / 10 ^ 6) ∧
      halfUp ((3 * 1 + 4 * 1 : ℚ) / 2000000 * 10 ^ 6) = 4 ∧
      F64.roundHalfEven ((3 * 1 + 4 * 1 : ℚ) / 2000000 * 10 ^ 6) = 4 ∧
      returned_cost_usd 1 0 = F64.rn (2 / 10 ^ 6) ∧
      F64.rn (2 / 10 ^ 6) ≠ F64.rn (1 / 10 ^ 6) ∧
      (3 * 1 + 4 * 0 : ℚ) / 2000000 * 10 ^ 6 = 3 / 2 := by
  decide!

/-- C6 (amended): for a successful rewrite whose usage counts `p = prompt_tokens` and
`c = completion_tokens` are below 2^32, the answer is 200 and the returned `cost_usd` is
the Number nearest to `n / 10^6` for an integer `n` nearest to `(3p + 4c) / 2`, that is
`(3p + 4c) / 2000000` rounded to 6 decimals with a tie going to either neighbour; when
`p` is even there is no tie and `n / 10^6 = (3p + 4c) / 2000000`. -/
theorem rewrite_cost_usd_nearest (t : Table AIRewrite) (b : RewriteBody)
    (openai : String → UpstreamResult) (completion : Completion)
    (hb : b.client_id.truthy = true ∧ b.term_key.truthy = true ∧
      b.original_explanation.truthy = true)
    (hok : openai (rewritePrompt b) = .ok completion)
    (hp : completion.usage.prompt_tokens < 2 ^ 32)
    (hc : completion.usage.completion_tokens < 2 ^ 32) :
    ∃ (n : ℕ) (d : RewriteData),
      (rewrite t b openai).response.status = 200 ∧
      (rewrite t b openai).response.data = .ok d ∧
      d.cost_usd = F64.rn ((n : ℚ) / 10 ^ 6) ∧
      2 * n ≤ 3 * completion.usage.prompt_tokens + 4 * completion.usage.completion_tokens + 1 ∧
      3 * completion.usage.prompt_tokens + 4 * completion.usage.completion_tokens ≤ 2 * n + 1 ∧
      (completion.usage.prompt_tokens % 2 = 0 →
        (n : ℚ) / 10 ^ 6 =
          (3 * completion.usage.prompt_tokens + 4 * completion.usage.completion_tokens : ℚ) /
            2000000) := by
  obtain ⟨hb1, hb2, hb3⟩ := hb
  obtain ⟨hx, hn1, hn2⟩ := cost_usd_toFixedN _ _ hp hc
  refine ⟨F64.toFixedN 6 (cost_usd completion.usage.prompt_tokens
    completion.usage.completion_tokens),
    { rewrite_id := t.nextId, rewritten_explanation := jsTrim completion.content,
      tokens_used := completion.usage.total_tokens,
      cost_usd := F64.parseFloatFixed 6 (cost_usd completion.usage.prompt_tokens
        completion.usage.completion_tokens) }, ?_, ?_, ?_, hn1, hn2, ?_⟩
  · simp [rewrite, hb1, hb2, hb3, hok]
  · simp [rewrite, hb1, hb2, hb3, hok]
  · simp only [F64.parseFloatFixed, if_neg (not_lt.mpr hx), one_mul]
  · intro heven
    have h2 : 2 * F64.toFixedN 6 (cost_usd completion.usage.prompt_tokens
        completion.usage.completion_tokens) =
        3 * completion.usage.prompt_tokens + 4 * completion.usage.completion_tokens := by
      omega
    have h2q : (2 : ℚ) * (F64.toFixedN 6 (cost_usd completion.usage.prompt_tokens
        completion.usage.completion_tokens) : ℚ) =
        3 * completion.usage.prompt_tokens + 4 * completion.usage.completion_tokens := by
      exact_mod_cast h2
    rw [← h2q]
    ring

theorem rewrite_cost_usd_nearest_witness :
    (∃ (n : ℕ) (d : RewriteData),
      (rewrite sampleRewrites (sampleRewrite (.str "Annual percentage rate."))
        (sampleOpenai 100 50)).response.status = 200 ∧
      (rewrite sampleRewrites (sampleRewrite (.str "Annual percentage rate."))
        (sampleOpenai 100 50)).response.data = .ok d ∧
      d.cost_usd = F64.rn ((n : ℚ) / 10 ^ 6) ∧
      2 * n ≤ 3 * 100 + 4 * 50 + 1 ∧ 3 * 100 + 4 * 50 ≤ 2 * n + 1 ∧
      (100 % 2 = 0 → (n : ℚ) / 10 ^ 6 = (3 * (100 : ℕ) + 4 * (50 : ℕ) : ℚ) / 2000000)) ∧
      returned_cost_usd 100 50 = F64.rn (25 / 100000) :=
  ⟨rewrite_cost_usd_nearest sampleRewrites (sampleRewrite (.str "Annual percentage rate."))
      (sampleOpenai 100 50) ⟨" A yearly rate. ", ⟨100, 50, 150⟩⟩ (by decide) rfl (by decide)
      (by decide),
    by decide!⟩

/-! ## Retention rate -/

/-- C5 (as stated, refuted): with 23 users active in the last week and 160 in the last
month the exact rate is 14.375, which rounds (half up, and half to even) to 14.38, but
`retention_rate` is the string `14.37%`. -/
theorem retention_rate_tie_counterexample :
    retention_rate 23 160 = "14.37%" ∧ (23 : ℚ) / 160 * 100 = 14375 / 1000 ∧
      halfUp ((23 : ℚ) / 160 * 100 * 100) = 1438 ∧
      F64.roundHalfEven ((23 : ℚ) / 160 * 100 * 100) = 1438 := by
  decide!

/-- C5 (amended): `retention_rate` is the string `0%` when `active_last_month = 0`.
Otherwise, for counts below 2^32, it is `n / 100` printed with exactly two decimals and
followed by `%`, where the integer `n` is nearest to the exact
`active_last_week / active_last_month * 100` times 100: it is that value rounded half up
unless the exact value is a tie, which may be rounded down. -/
theorem retention_rate_nearest (w m : ℕ) :
    (m = 0 → retention_rate w m = "0%") ∧
      (0 < m → w < 2 ^ 32 → m < 2 ^ 32 →
        ∃ n : ℕ, retention_rate w m = String.mk (F64.fixedDigits 2 n) ++ "%" ∧
          (∃ a b : List Char, F64.fixedDigits 2 n = a ++ '.' :: b ∧ b.length = 2 ∧ a ≠ []) ∧
          2 * n * m ≤ 20000 * w + m ∧ 20000 * w ≤ (2 * n + 1) * m ∧
          (20000 * w ≠ (2 * n + 1) * m → (n : ℤ) = halfUp ((w : ℚ) / m * 100 * 100))) := by
  constructor
  · intro h
    simp [retention_rate, h]
  · intro hm hw hm2
    have hwi := retention_within w m hw hm hm2
    have hmq : (0 : ℚ) < m := by exact_mod_cast hm
    have hE : (0 : ℚ) ≤ 100 * ((w : ℚ) / m) := by positivity
    have hx := F64.within_nonneg hwi hE
    have herr := F64.within_scaled_err hwi (by norm_num) hE (10 ^ 2) (by norm_num)
    have hw' : (w : ℚ) < 2 ^ 32 := by exact_mod_cast hw
    have hw0 : (0 : ℚ) ≤ w := by positivity
    obtain ⟨hn1, hn2⟩ := F64.toFixedN_bounds 2 _ hx (10000 * w) m hm (by
      have e : 100 * ((w : ℚ) / m) * 10 ^ 2 = ((10000 * w : ℕ) : ℚ) / (m : ℕ) := by
        push_cast; ring
      rw [e] at herr
      refine lt_of_le_of_lt herr ?_
      push_cast
      rw [show (10000 * (w : ℚ) / m * (9 * F64.eps)) = (90000 * w * F64.eps) / m by ring,
        show (1 : ℚ) / (2 * m) = (1 / 2) / m by field_simp]
      apply div_lt_div_of_pos_right _ hmq
      unfold F64.eps
      norm_num
      linarith)
    refine ⟨F64.toFixedN 2 (F64.mul (F64.div (F64.ofNat w) (F64.ofNat m)) (F64.ofNat 100)), ?_,
      F64.fixedDigits_two _, ?_, ?_, ?_⟩
    · simp only [retention_rate, gt_iff_lt, hm, if_true, F64.toFixed, if_neg (not_lt.mpr hx),
        List.nil_append]
    · calc 2 * _ * m ≤ 2 * (10000 * w) + m := hn1
        _ = 20000 * w + m := by ring
    · calc 20000 * w = 2 * (10000 * w) := by ring
        _ ≤ _ := hn2
    · intro hne
      have hlt : 20000 * w < (2 * F64.toFixedN 2 (F64.mul (F64.div (F64.ofNat w) (F64.ofNat m))
          (F64.ofNat 100)) + 1) * m := by
        have : 2 * (10000 * w) = 20000 * w := by ring
        omega
      generalize F64.toFixedN 2 (F64.mul (F64.div (F64.ofNat w) (F64.ofNat m))
          (F64.ofNat 100)) = n at hn1 hn2 hne hlt ⊢
      have h1q : (2 * (n : ℚ) * m) ≤ 2 * (10000 * w) + m := by exact_mod_cast hn1
      have h2q : (20000 * (w : ℚ)) < (2 * n + 1) * m := by exact_mod_cast hlt
      symm
      unfold halfUp
      rw [Int.floor_eq_iff]
      push_cast
      constructor
      · rw [show (w : ℚ) / m * 100 * 100 + 1 / 2 = (20000 * w + m) / (2 * m) by field_simp; ring,
          le_div_iff₀ (by positivity)]
        linarith
      · rw [show (w : ℚ) / m * 100 * 100 + 1 / 2 = (20000 * w + m) / (2 * m) by field_simp; ring,
          div_lt_iff₀ (by positivity)]
        linarith

theorem retention_rate_nearest_witness :
    retention_rate 5 0 = "0%" ∧
      ∃ n : ℕ, retention_rate 1 3 = String.mk (F64.fixedDigits 2 n) ++ "%" ∧
        (∃ a b : List Char, F64.fixedDigits 2 n = a ++ '.' :: b ∧ b.length = 2 ∧ a ≠ []) ∧
        2 * n * 3 ≤ 20000 * 1 + 3 ∧ 20000 * 1 ≤ (2 * n + 1) * 3 ∧
        (20000 * 1 ≠ (2 * n + 1) * 3 → (n : ℤ) = halfUp (((1 : ℕ) : ℚ) / (3 : ℕ) * 100 * 100)) :=
  ⟨(retention_rate_nearest 5 0).1 rfl,
    (retention_rate_nearest 1 3).2 (by decide) (by decide) (by decide)⟩

end AskAyo
